import Mathlib

/-!
Verification of the semantic tensor memory store
(`src/agents/semantic-tensor-memory.js`) against its specification.

JS `Map`s are modelled as insertion-ordered association lists, JS `Set`s as
insertion-ordered duplicate-free lists, JS numbers as `Int` (epoch-millisecond
timestamps) or `Real` (scores, similarities, embedding components).  The
wall-clock reads (`Date.now()` inside generated ids and `lastUpdated` fields)
are modelled as explicit parameters or the constant 0, since no verified
property depends on them.  All date arithmetic is fixed to UTC.
-/

/-- JS `Map.prototype.get`: the value bound to the first matching key. -/
def alookup {α : Type} : List (String × α) → String → Option α
  | [], _ => none
  | p :: t, k => if p.1 = k then some p.2 else alookup t k

/-- JS `Map.prototype.set`: update the value in place if the key exists
(keeping its position), else append the binding. -/
def mapSet {α : Type} (m : List (String × α)) (k : String) (v : α) :
    List (String × α) :=
  if (alookup m k).isSome then
    m.map (fun p => if p.1 = k then (k, v) else p)
  else m ++ [(k, v)]

/-- JS `Map.prototype.delete`. -/
def mapDelete {α : Type} (m : List (String × α)) (k : String) :
    List (String × α) :=
  m.filter (fun p => p.1 ≠ k)

/-- JS `Set.prototype.add`. -/
def setAdd (s : List String) (x : String) : List String :=
  if x ∈ s then s else s ++ [x]

@[simp] theorem alookup_nil {α : Type} (k : String) :
    alookup ([] : List (String × α)) k = none := rfl

@[simp] theorem alookup_cons {α : Type} (p : String × α) (t : List (String × α))
    (k : String) :
    alookup (p :: t) k = if p.1 = k then some p.2 else alookup t k := rfl

theorem alookup_append {α : Type} (m₁ m₂ : List (String × α)) (k : String) :
    alookup (m₁ ++ m₂) k =
      (alookup m₁ k).or (alookup m₂ k) := by
  induction m₁ with
  | nil => simp
  | cons p t ih =>
    by_cases h : p.1 = k <;> simp [h, ih]

theorem lookup_mapSet_self {α : Type} (m : List (String × α)) (k : String) (v : α) :
    alookup (mapSet m k v) k = some v := by
  unfold mapSet
  by_cases hm : (alookup m k).isSome
  · rw [if_pos hm]
    induction m with
    | nil => simp at hm
    | cons p t ih =>
      by_cases h : p.1 = k
      · simp [h]
      · simp only [alookup_cons, if_neg h] at hm
        simpa [h] using ih hm
  · rw [if_neg hm, alookup_append]
    rw [Option.not_isSome_iff_eq_none] at hm
    simp [hm]

theorem lookup_map_replace_ne {α : Type} (m : List (String × α)) (k k' : String)
    (v : α) (hne : k ≠ k') :
    alookup (m.map (fun p => if p.1 = k then (k, v) else p)) k' = alookup m k' := by
  induction m with
  | nil => simp
  | cons p t ih =>
    rw [List.map_cons]
    by_cases h : p.1 = k
    · rw [if_pos h, alookup_cons, alookup_cons, if_neg hne,
        if_neg (fun hh => hne (h.symm.trans hh)), ih]
    · rw [if_neg h, alookup_cons, alookup_cons]
      by_cases h' : p.1 = k'
      · rw [if_pos h', if_pos h']
      · rw [if_neg h', if_neg h', ih]

theorem lookup_mapSet_ne {α : Type} (m : List (String × α)) (k k' : String)
    (v : α) (hne : k ≠ k') :
    alookup (mapSet m k v) k' = alookup m k' := by
  unfold mapSet
  split
  · exact lookup_map_replace_ne m k k' v hne
  · rw [alookup_append]
    have : alookup [(k, v)] k' = none := by simp [if_neg hne]
    rw [this]
    cases alookup m k' <;> rfl

theorem lookup_mapDelete_self {α : Type} (m : List (String × α)) (k : String) :
    alookup (mapDelete m k) k = none := by
  unfold mapDelete
  induction m with
  | nil => rfl
  | cons p t ih =>
    rw [List.filter_cons]
    by_cases h : p.1 = k
    · simpa [h] using ih
    · simpa [h] using ih

theorem lookup_mapDelete_ne {α : Type} (m : List (String × α)) (k k' : String)
    (hne : k ≠ k') :
    alookup (mapDelete m k) k' = alookup m k' := by
  unfold mapDelete
  induction m with
  | nil => rfl
  | cons p t ih =>
    rw [List.filter_cons]
    by_cases h : p.1 = k
    · simpa [h, hne] using ih
    · by_cases h' : p.1 = k'
      · simp [h, h', hne.symm]
      · simpa [h, h'] using ih

theorem mem_setAdd_self (s : List String) (x : String) : x ∈ setAdd s x := by
  unfold setAdd
  split
  · assumption
  · simp

theorem mem_setAdd_of_mem {s : List String} {y : String} (x : String)
    (h : y ∈ s) : y ∈ setAdd s x := by
  unfold setAdd
  split
  · exact h
  · simp [h]

theorem mem_setAdd_iff (s : List String) (x y : String) :
    y ∈ setAdd s x ↔ y ∈ s ∨ y = x := by
  unfold setAdd
  split <;> rename_i hmem
  · constructor
    · exact fun h => Or.inl h
    · rintro (h | h)
      · exact h
      · exact h ▸ hmem
  · simp

/-!
UTC model of the JS `Date` accessors used by the store
(`getFullYear`/`getMonth`/`getDate`/`getHours`/`getDay`), via the standard
civil-calendar conversion on days since 1970-01-01.  `getMonth` is 0-based as
in JS.
-/

def daysFromMs (ms : Int) : Int := Int.ediv ms 86400000

def getHoursOf (ms : Int) : Int := Int.ediv (Int.emod ms 86400000) 3600000

/-- Civil date (year, 1-based month, day) from a count of days since
1970-01-01, proleptic Gregorian calendar. -/
def civilFromDays (z0 : Int) : Int × Int × Int :=
  let z := z0 + 719468
  let era := Int.ediv z 146097
  let doe := z - era * 146097
  let yoe := Int.ediv (doe - Int.ediv doe 1460 + Int.ediv doe 36524 - Int.ediv doe 146096) 365
  let y := yoe + era * 400
  let doy := doe - (365 * yoe + Int.ediv yoe 4 - Int.ediv yoe 100)
  let mp := Int.ediv (5 * doy + 2) 153
  let d := doy - Int.ediv (153 * mp + 2) 5 + 1
  let m := mp + (if mp < 10 then 3 else -9)
  ((if m ≤ 2 then y + 1 else y), m, d)

/-- Days since 1970-01-01 of a civil date (1-based month). -/
def daysFromCivil (y0 m d : Int) : Int :=
  let y := if m ≤ 2 then y0 - 1 else y0
  let era := Int.ediv y 400
  let yoe := y - era * 400
  let doy := Int.ediv (153 * (m + (if 2 < m then -3 else 9)) + 2) 5 + d - 1
  let doe := yoe * 365 + Int.ediv yoe 4 - Int.ediv yoe 100 + doy
  era * 146097 + doe - 719468

def getFullYearOf (ms : Int) : Int := (civilFromDays (daysFromMs ms)).1

/-- JS `getMonth()`: 0-based month. -/
def getMonthOf (ms : Int) : Int := (civilFromDays (daysFromMs ms)).2.1 - 1

def getDateOf (ms : Int) : Int := (civilFromDays (daysFromMs ms)).2.2

/-- JS `getDay()`: day of week, Sunday = 0 (1970-01-01 was a Thursday). -/
def getDayOf (ms : Int) : Int := Int.emod (daysFromMs ms + 4) 7

/-- `getWeekNumber(date)` from the source: fractional days since local Jan 1,
shifted by Jan 1's weekday, divided by 7 and rounded up. -/
def getWeekNumberOf (ms : Int) : Int :=
  let y := getFullYearOf ms
  let jan1 := daysFromCivil y 1 1
  let jan1Dow := Int.emod (jan1 + 4) 7
  let pastDaysOfYear : ℚ := ((ms : ℚ) - ((jan1 * 86400000 : Int) : ℚ)) / 86400000
  Int.ceil ((pastDaysOfYear + (jan1Dow : ℚ) + 1) / 7)

/-- Hour-granularity temporal key `${y}-${m}-${d}-${h}`. -/
def hourKeyOf (ts : Int) : String :=
  toString (getFullYearOf ts) ++ "-" ++ toString (getMonthOf ts) ++ "-" ++
    toString (getDateOf ts) ++ "-" ++ toString (getHoursOf ts)

/-- Day-granularity temporal key `${y}-${m}-${d}`. -/
def dayKeyOf (ts : Int) : String :=
  toString (getFullYearOf ts) ++ "-" ++ toString (getMonthOf ts) ++ "-" ++
    toString (getDateOf ts)

/-- Week-granularity temporal key `${y}-${week}`. -/
def weekKeyOf (ts : Int) : String :=
  toString (getFullYearOf ts) ++ "-" ++ toString (getWeekNumberOf ts)

/-- Month-granularity temporal key `${y}-${m}`. -/
def monthKeyOf (ts : Int) : String :=
  toString (getFullYearOf ts) ++ "-" ++ toString (getMonthOf ts)

/-- `getSeason(date)` from the source (on the 0-based month). -/
def getSeason (month : Int) : String :=
  if 2 ≤ month ∧ month ≤ 4 then "spring"
  else if 5 ≤ month ∧ month ≤ 7 then "summer"
  else if 8 ≤ month ∧ month ≤ 10 then "fall"
  else "winter"

/-! ### Data model -/

/-- One edge of the relationship graph: `{type, targetId, strength}`. -/
structure RelEdge where
  type : String
  targetId : String
  strength : ℝ

/-- One concept cluster: `{id, centroid, members, concept, lastUpdated}`.
`members` is a JS `Set`, modelled as an insertion-ordered duplicate-free
list. -/
structure Cluster where
  id : String
  centroid : List ℝ
  members : List String
  concept : String
  lastUpdated : Int

/-- An entry of the embedding index: `{unified, text, vision, dimension}`.
`unified` is non-optional because `indexEmbeddings` only creates the entry
when the unified embedding is truthy. -/
structure EmbIdxEntry where
  unified : List ℝ
  text : Option (List ℝ)
  vision : Option (List ℝ)
  dimension : Int

/-- `agentOutputs.text` / `.vision` / `.orchestrator` summaries stored on a
memory entry. -/
structure AgentOutText where
  summary : String
  confidence : ℝ

structure AgentOutVision where
  synthesis : String
  confidence : ℝ

structure AgentOutOrchestrator where
  unifiedAnalysis : String
  confidence : ℝ

structure AgentOutputs where
  text : AgentOutText
  vision : AgentOutVision
  orchestrator : AgentOutOrchestrator

/-- `embeddingsTensor` on a stored record.  The source sets every vector to
`null` ("Embeddings removed to save storage space"), but other write paths
(`importMemoryState`) can carry vectors, so the fields stay optional. -/
structure EmbeddingsTensor where
  unified : Option (List ℝ)
  text : Option (List ℝ)
  vision : Option (List ℝ)
  dimension : Int

structure SemanticFeatures where
  contentType : String
  pageType : String
  topics : List String
  categories : List String
  quality : ℝ
  confidence : Option ℝ

structure TemporalFeatures where
  hour : Int
  dayOfWeek : Int
  month : Int
  season : String

/-- Analysis provenance kept for audit; never interpreted by the core. -/
structure Provenance where
  textAgent : Option String
  visionAgent : Option String
  orchestratorAgent : String
  processingTime : ℝ
  synthesisApproach : String
  overallScore : ℝ
  agentAgreement : Option String

/-- The canonical `MemoryRecord`. -/
structure MemoryEntry where
  memoryId : String
  timestamp : Int
  url : String
  domain : String
  agentOutputs : AgentOutputs
  embeddingsTensor : EmbeddingsTensor
  semanticFeatures : SemanticFeatures
  temporalFeatures : TemporalFeatures
  provenance : Provenance

/-- The whole mutable state of a `SemanticTensorMemory` instance. -/
structure MemState where
  maxMemories : Nat
  memoryStore : List (String × MemoryEntry)
  embeddingIndex : List (String × EmbIdxEntry)
  conceptClusters : List (String × Cluster)
  relationshipGraph : List (String × List RelEdge)
  temporalHour : List (String × List String)
  temporalDay : List (String × List String)
  temporalWeek : List (String × List String)
  temporalMonth : List (String × List String)
  semanticCategories : List (String × List String)
  domainClusters : List (String × List String)
  embeddingBuckets : List (String × List String)

/-- A freshly constructed store (`initializeIndices`). -/
def emptyState (maxMemories : Nat) : MemState :=
  ⟨maxMemories, [], [], [], [], [], [], [], [], [], [], []⟩

/-! ### Raw orchestration results (input of `storeMemory`)

Fields the source reads through optional chaining (`?.`) are `Option`s;
fields it dereferences unconditionally (`agentResults`,
`orchestratorSynthesis`, `qualityMetrics`, `orchestrationMetadata`) are plain,
matching the shape every caller passes. -/

structure OrchTextMetadata where
  contentType : Option String
  pageType : Option String

structure OrchTextAnalysis where
  summary : Option String
  metadata : Option OrchTextMetadata

structure OrchTextResult where
  textAnalysis : Option OrchTextAnalysis
  confidence : Option ℝ
  agentId : Option String

structure OrchVisualFeatures where
  designStyle : Option String
  userExperience : Option String

structure OrchVisionAnalysis where
  synthesis : Option String
  visualFeatures : Option OrchVisualFeatures

structure OrchVisionResult where
  visionAnalysis : Option OrchVisionAnalysis
  confidence : Option ℝ
  agentId : Option String

structure OrchAgentResults where
  text : Option OrchTextResult
  vision : Option OrchVisionResult

structure OrchSynthesis where
  unifiedAnalysis : Option String
  confidence : Option ℝ
  agentAgreement : Option String

structure OrchMetadataBag where
  processingTime : ℝ
  synthesisApproach : String

structure QualityMetrics where
  overallScore : ℝ

structure OrchestrationResult where
  timestamp : Int
  url : String
  agentId : String
  agentResults : OrchAgentResults
  orchestratorSynthesis : OrchSynthesis
  qualityMetrics : QualityMetrics
  orchestrationMetadata : OrchMetadataBag

/-! ### Utility methods of the source -/

/-- `calculateCosineSimilarity(vecA, vecB)`.  The guard on a `null` argument
is handled at call sites by the `Option` types; the length guard is kept
here.  `Math.sqrt` is `Real.sqrt`. -/
noncomputable def calculateCosineSimilarity (vecA vecB : List ℝ) : ℝ :=
  if vecA.length ≠ vecB.length then 0
  else
    let dotProduct := ((vecA.zip vecB).map (fun p => p.1 * p.2)).sum
    let normA := (vecA.map (fun x => x * x)).sum
    let normB := (vecB.map (fun x => x * x)).sum
    let denominator := Real.sqrt normA * Real.sqrt normB
    if denominator = 0 then 0 else dotProduct / denominator

/-- `extractDomain(url)`: `new URL(url).hostname`, `'unknown'` on a parse
failure.  URL parsing itself is outside the store; it is modelled as an
opaque total function fixed once for the whole development. -/
def extractDomain (url : String) : String :=
  let colonSlashSlash := url.splitOn "://"
  match colonSlashSlash with
  | _scheme :: rest :: _ =>
    match (rest.splitOn "/") with
    | host :: _ => if host = "" then "unknown" else host
    | [] => "unknown"
  | _ => "unknown"

/-- The stop-word list of `extractTopicsFromText`. -/
def commonWords : List String :=
  ["the", "and", "or", "but", "in", "on", "at", "to", "for", "of", "with", "by"]

/-- `text.toLowerCase()`, character-wise (structural recursion so that the
kernel can evaluate it; agrees with `String.toLower` on the ASCII data of
interest). -/
def lowerString (s : String) : String := String.mk (s.data.map Char.toLower)

def splitWsAux : List Char → List Char → List String
  | [], cur => [String.mk cur.reverse]
  | c :: rest, cur =>
    if c.isWhitespace then String.mk cur.reverse :: splitWsAux rest []
    else splitWsAux rest (c :: cur)

/-- `text.split(/\s+/)`, modelled as splitting at every whitespace character
(structural recursion).  A run of n whitespace characters yields n - 1 empty
fragments that the JS regex would merge; all call sites filter those
fragments away, so the results agree. -/
def splitWs (s : String) : List String := splitWsAux s.data []

/-- `extractTopicsFromText(text)`: lowercase, split on whitespace, keep words
longer than 3 characters that are not stop words, first 5.  (JS `split(/\s+/)`
merges whitespace runs; the empty fragments produced by splitting on single
characters are removed by the length filter, so the filtered lists agree.) -/
def extractTopicsFromText (text : String) : List String :=
  ((splitWs (lowerString text)).filter
    (fun word => decide (3 < word.length) && !(commonWords.contains word))).take 5

/-- `[...new Set(l)]`: de-duplication keeping first occurrences. -/
def dedupFirst (l : List String) : List String :=
  l.foldl (fun acc x => if x ∈ acc then acc else acc ++ [x]) []

/-- `extractTopics(orchestrationResult)`. -/
def extractTopics (r : OrchestrationResult) : List String :=
  let textSummary :=
    (((r.agentResults.text.bind (fun t => t.textAnalysis)).bind
      (fun a => a.summary)).getD "")
  let visionSynthesis :=
    (((r.agentResults.vision.bind (fun v => v.visionAnalysis)).bind
      (fun a => a.synthesis)).getD "")
  let topics := extractTopicsFromText textSummary ++ extractTopicsFromText visionSynthesis
  (dedupFirst topics).take 10

/-- JS string truthiness: `undefined`/`null`/`''` are falsy. -/
def truthyStr (o : Option String) : Option String :=
  o.bind (fun s => if s = "" then none else some s)

/-- `extractCategories(orchestrationResult)`. -/
def extractCategories (r : OrchestrationResult) : List String :=
  let textMetadata := (r.agentResults.text.bind (fun t => t.textAnalysis)).bind
    (fun a => a.metadata)
  let visualFeatures := (r.agentResults.vision.bind (fun v => v.visionAnalysis)).bind
    (fun a => a.visualFeatures)
  let categories :=
    (truthyStr (textMetadata.bind (fun m => m.contentType))).toList ++
    (truthyStr (textMetadata.bind (fun m => m.pageType))).toList ++
    (truthyStr (visualFeatures.bind (fun f => f.designStyle))).toList ++
    (truthyStr (visualFeatures.bind (fun f => f.userExperience))).toList
  dedupFirst categories

/-- `extractContentType(orchestrationResult)`: `contentType || 'general'`. -/
def extractContentType (r : OrchestrationResult) : String :=
  ((truthyStr (((r.agentResults.text.bind (fun t => t.textAnalysis)).bind
    (fun a => a.metadata)).bind (fun m => m.contentType))).getD "general")

/-- `extractPageType(orchestrationResult)`: `pageType || 'page'`. -/
def extractPageType (r : OrchestrationResult) : String :=
  ((truthyStr (((r.agentResults.text.bind (fun t => t.textAnalysis)).bind
    (fun a => a.metadata)).bind (fun m => m.pageType))).getD "page")

/-- `summary?.substring(0, 200)` followed by
`textSummary ? textSummary + '...' : ''` (an empty summary is falsy). -/
def summaryWithEllipsis (o : Option String) : String :=
  match o with
  | none => ""
  | some s => if s = "" then "" else s.take 200 ++ "..."

/-- `inferConceptFromFeatures(semanticFeatures)`. -/
def inferConceptFromFeatures (f : SemanticFeatures) : String :=
  extractContentTypeJoin f.contentType (f.topics.take 3)
where
  extractContentTypeJoin (ct : String) (topics : List String) : String :=
    ct ++ ": " ++ String.intercalate ", " topics

/-- `createMemoryEntry(memoryId, orchestrationResult)`.  Note that the source
unconditionally stores `null` embeddings ("Embeddings removed to save storage
space"). -/
def createMemoryEntry (memoryId : String) (r : OrchestrationResult) : MemoryEntry :=
  { memoryId := memoryId
    timestamp := r.timestamp
    url := r.url
    domain := extractDomain r.url
    agentOutputs :=
      { text :=
          { summary := summaryWithEllipsis
              ((r.agentResults.text.bind (fun t => t.textAnalysis)).bind
                (fun a => a.summary))
            confidence := ((r.agentResults.text.bind (fun t => t.confidence)).getD 0) }
        vision :=
          { synthesis := summaryWithEllipsis
              ((r.agentResults.vision.bind (fun v => v.visionAnalysis)).bind
                (fun a => a.synthesis))
            confidence := ((r.agentResults.vision.bind (fun v => v.confidence)).getD 0) }
        orchestrator :=
          { unifiedAnalysis := summaryWithEllipsis r.orchestratorSynthesis.unifiedAnalysis
            confidence := (r.orchestratorSynthesis.confidence.getD 0) } }
    embeddingsTensor := { unified := none, text := none, vision := none, dimension := 0 }
    semanticFeatures :=
      { contentType := extractContentType r
        pageType := extractPageType r
        topics := extractTopics r
        categories := extractCategories r
        quality := r.qualityMetrics.overallScore
        confidence := r.orchestratorSynthesis.confidence }
    temporalFeatures :=
      { hour := getHoursOf r.timestamp
        dayOfWeek := getDayOf r.timestamp
        month := getMonthOf r.timestamp
        season := getSeason (getMonthOf r.timestamp) }
    provenance :=
      { textAgent := r.agentResults.text.bind (fun t => t.agentId)
        visionAgent := r.agentResults.vision.bind (fun v => v.agentId)
        orchestratorAgent := r.agentId
        processingTime := r.orchestrationMetadata.processingTime
        synthesisApproach := r.orchestrationMetadata.synthesisApproach
        overallScore := r.qualityMetrics.overallScore
        agentAgreement := r.orchestratorSynthesis.agentAgreement } }

/-! ### Write path -/

/-- `calculateEmbeddingBucket(embedding)`: `Math.floor(sum * 100) % 100` as a
string key, `'default'` for a missing embedding (JS `%` truncates toward
zero). -/
noncomputable def calculateEmbeddingBucket (embedding : Option (List ℝ)) : String :=
  match embedding with
  | none => "default"
  | some v => toString (Int.tmod (Int.floor (v.sum * 100)) 100)

/-- `indexEmbeddings(memoryId, memoryEntry)`: adds to the embedding index only
when the unified embedding is truthy, and always records the id in an
embedding bucket. -/
noncomputable def indexEmbeddings (memoryId : String) (entry : MemoryEntry)
    (st : MemState) : MemState :=
  let embeddings := entry.embeddingsTensor
  let st1 :=
    match embeddings.unified with
    | some u =>
      { st with embeddingIndex := (mapSet st.embeddingIndex memoryId
          ⟨u, embeddings.text, embeddings.vision, embeddings.dimension⟩) }
    | none => st
  let bucketKey := calculateEmbeddingBucket embeddings.unified
  { st1 with embeddingBuckets := (mapSet st1.embeddingBuckets bucketKey
      (setAdd ((alookup st1.embeddingBuckets bucketKey).getD []) memoryId)) }

/-- `addToTemporalBucket` (also the body of the `forEach` loops of
`updateSemanticCategories` / `updateDomainClusters`): create the `Set` on
first use, then add. -/
def addToBucket (m : List (String × List String)) (key memoryId : String) :
    List (String × List String) :=
  match alookup m key with
  | none => mapSet m key (setAdd [] memoryId)
  | some s => mapSet m key (setAdd s memoryId)

/-- `updateTemporalIndices(memoryId, memoryEntry)`. -/
def updateTemporalIndices (memoryId : String) (entry : MemoryEntry)
    (st : MemState) : MemState :=
  { st with
    temporalHour := addToBucket st.temporalHour (hourKeyOf entry.timestamp) memoryId
    temporalDay := addToBucket st.temporalDay (dayKeyOf entry.timestamp) memoryId
    temporalWeek := addToBucket st.temporalWeek (weekKeyOf entry.timestamp) memoryId
    temporalMonth := addToBucket st.temporalMonth (monthKeyOf entry.timestamp) memoryId }

/-- `updateSemanticCategories(memoryId, memoryEntry)`. -/
def updateSemanticCategories (memoryId : String) (entry : MemoryEntry)
    (st : MemState) : MemState :=
  { st with semanticCategories := (entry.semanticFeatures.categories.foldl
      (fun m category => addToBucket m category memoryId) st.semanticCategories) }

/-- `updateDomainClusters(memoryId, memoryEntry)`. -/
def updateDomainClusters (memoryId : String) (entry : MemoryEntry)
    (st : MemState) : MemState :=
  { st with domainClusters := addToBucket st.domainClusters entry.domain memoryId }

/-- `findDomainRelatedMemories(domain, excludeId)`. -/
def findDomainRelatedMemories (domain excludeId : String) (st : MemState) :
    List String :=
  (((alookup st.domainClusters domain).getD []).filter
    (fun id => id ≠ excludeId)).take 5

/-- Stable insertion into a list sorted descending by `key` (ties keep the
existing element first), modelling JS's stable `sort((a, b) => key b - key a)`
when elements are inserted left to right. -/
noncomputable def insertDescBy {α : Type} (key : α → ℝ) : List α → α → List α
  | [], x => [x]
  | y :: t, x =>
    if key x ≤ key y then y :: insertDescBy key t x else x :: y :: t

/-- Stable descending sort by a real-valued key. -/
noncomputable def sortDescBy {α : Type} (key : α → ℝ) (l : List α) : List α :=
  l.foldl (insertDescBy key) []

/-- `findSemanticallySimilarMemories(memoryEntry, excludeId)`: linear scan of
the embedding index, keep similarity > 0.7, sort descending, top 5. -/
noncomputable def findSemanticallySimilarMemories (entry : MemoryEntry)
    (excludeId : String) (st : MemState) : List RelEdge :=
  match entry.embeddingsTensor.unified with
  | none => []
  | some targetEmbedding =>
    let similarities := st.embeddingIndex.foldl
      (fun acc p =>
        if p.1 = excludeId then acc
        else
          let similarity := calculateCosineSimilarity targetEmbedding p.2.unified
          if 0.7 < similarity then acc ++ [⟨"semantic-similar", p.1, similarity⟩]
          else acc) []
    (sortDescBy (fun e => e.strength) similarities).take 5

/-- `findTemporallyRelatedMemories(timestamp, excludeId)`. -/
def findTemporallyRelatedMemories (timestamp : Int) (excludeId : String)
    (st : MemState) : List String :=
  (((alookup st.temporalDay (dayKeyOf timestamp)).getD []).filter
    (fun id => id ≠ excludeId)).take 3

/-- `findVisuallySimilarMemories(memoryEntry, excludeId)`: vision-embedding
scan, keep similarity > 0.8, sort descending, top 3. -/
noncomputable def findVisuallySimilarMemories (entry : MemoryEntry)
    (excludeId : String) (st : MemState) : List RelEdge :=
  match entry.embeddingsTensor.vision with
  | none => []
  | some targetVisionEmbedding =>
    let similarities := st.embeddingIndex.foldl
      (fun acc p =>
        if p.1 = excludeId then acc
        else
          match p.2.vision with
          | none => acc
          | some v =>
            let similarity := calculateCosineSimilarity targetVisionEmbedding v
            if 0.8 < similarity then acc ++ [⟨"visual-similar", p.1, similarity⟩]
            else acc) []
    (sortDescBy (fun e => e.strength) similarities).take 3

/-- The `relationships` list assembled inside
`discoverRelationships(memoryId, memoryEntry)`. -/
noncomputable def computeRelationships (memoryId : String) (entry : MemoryEntry)
    (st : MemState) : List RelEdge :=
  let domainRelated := findDomainRelatedMemories entry.domain memoryId st
  let semanticRelated := findSemanticallySimilarMemories entry memoryId st
  let temporalRelated := findTemporallyRelatedMemories entry.timestamp memoryId st
  let visuallyRelated :=
    match entry.embeddingsTensor.vision with
    | some _ => findVisuallySimilarMemories entry memoryId st
    | none => []
  domainRelated.map (fun id => ⟨"domain-related", id, 0.7⟩) ++
    semanticRelated ++
    temporalRelated.map (fun id => ⟨"temporal-related", id, 0.5⟩) ++
    visuallyRelated

/-- `discoverRelationships(memoryId, memoryEntry)`: store the discovered
edges under `memoryId`, then append a `-reverse` edge to every target's
list (created on demand). -/
noncomputable def discoverRelationships (memoryId : String) (entry : MemoryEntry)
    (st : MemState) : MemState :=
  let relationships := computeRelationships memoryId entry st
  let g1 := mapSet st.relationshipGraph memoryId relationships
  let g2 := relationships.foldl
    (fun g rel =>
      mapSet g rel.targetId
        (((alookup g rel.targetId).getD []) ++
          [⟨rel.type ++ "-reverse", memoryId, rel.strength⟩])) g1
  { st with relationshipGraph := g2 }

/-- Component-wise accumulation of one member embedding into the running
centroid sum (`embedding.forEach((value, index) => centroid[index] += value)`).
When an embedding is longer than the initial `dimension` the source would
write `NaN` into the fresh slots; the model 0-extends instead, which agrees
with the source whenever all member embeddings share the initial dimension —
the only case any verified statement is about. -/
noncomputable def accumVec (c e : List ℝ) : List ℝ :=
  (List.range (max c.length e.length)).map
    (fun i => c.getD i 0 + e.getD i 0)

/-- `updateClusterCentroid(clusterId)`: recompute the centroid as the mean of
the member embeddings found in the embedding index. -/
noncomputable def updateClusterCentroid (clusterId : String) (st : MemState) : MemState :=
  match alookup st.conceptClusters clusterId with
  | none => st
  | some cluster =>
    if cluster.members = [] then st
    else
      let embeddings := cluster.members.foldl
        (fun acc mid =>
          match alookup st.embeddingIndex mid with
          | some e => acc ++ [e.unified]
          | none => acc) []
      match embeddings with
      | [] => st
      | e0 :: _ =>
        let dimension := e0.length
        let sums := embeddings.foldl accumVec (List.replicate dimension 0)
        let centroid := sums.map (fun v => v / (embeddings.length : ℝ))
        { st with conceptClusters := (mapSet st.conceptClusters clusterId
            { cluster with centroid := centroid, lastUpdated := 0 }) }

/-- `findOrCreateConceptCluster(embedding, semanticFeatures)`: the id of the
first existing cluster (in map iteration order) whose centroid similarity
exceeds 0.85, else a freshly generated id (modelled as the parameter
`newClusterId`). -/
noncomputable def findOrCreateConceptCluster (newClusterId : String)
    (embedding : List ℝ) (st : MemState) : String :=
  match st.conceptClusters.find?
      (fun p => decide (0.85 < calculateCosineSimilarity embedding p.2.centroid)) with
  | some p => p.1
  | none => newClusterId

/-- `updateConceptClusters(memoryId, memoryEntry)`. -/
noncomputable def updateConceptClusters (memoryId newClusterId : String)
    (entry : MemoryEntry) (st : MemState) : MemState :=
  match entry.embeddingsTensor.unified with
  | none => st
  | some embedding =>
    let clusterId := findOrCreateConceptCluster newClusterId embedding st
    let st1 :=
      if (alookup st.conceptClusters clusterId).isSome then st
      else
        { st with conceptClusters := (mapSet st.conceptClusters clusterId
            ⟨clusterId, embedding, [],
              inferConceptFromFeatures entry.semanticFeatures, 0⟩) }
    match alookup st1.conceptClusters clusterId with
    | none => st1
    | some cluster =>
      let st2 :=
        { st1 with conceptClusters := (mapSet st1.conceptClusters clusterId
            { cluster with members := setAdd cluster.members memoryId }) }
      updateClusterCentroid clusterId st2

/-- `removeMemory(memoryId)`: scrub the id from the canonical table, the
embedding index, the relationship graph (own entry, plus the FIRST matching
edge of every other entry — `findIndex` + `splice(index, 1)`), every cluster's
member set, every temporal bucket, every category entry and every domain
entry.  The `embeddingBuckets` map is not cleaned by the source. -/
def removeFirstEdgeTo (memoryId : String) : List RelEdge → List RelEdge
  | [] => []
  | r :: t => if r.targetId = memoryId then t else r :: removeFirstEdgeTo memoryId t

def removeMemory (memoryId : String) (st : MemState) : MemState :=
  { maxMemories := st.maxMemories
    memoryStore := mapDelete st.memoryStore memoryId
    embeddingIndex := mapDelete st.embeddingIndex memoryId
    relationshipGraph := ((mapDelete st.relationshipGraph memoryId).map
      (fun p => (p.1, removeFirstEdgeTo memoryId p.2)))
    conceptClusters := (st.conceptClusters.map
      (fun p => (p.1, { p.2 with members := p.2.members.filter (fun id => id ≠ memoryId) })))
    temporalHour := st.temporalHour.map (fun p => (p.1, p.2.filter (fun id => id ≠ memoryId)))
    temporalDay := st.temporalDay.map (fun p => (p.1, p.2.filter (fun id => id ≠ memoryId)))
    temporalWeek := st.temporalWeek.map (fun p => (p.1, p.2.filter (fun id => id ≠ memoryId)))
    temporalMonth := st.temporalMonth.map (fun p => (p.1, p.2.filter (fun id => id ≠ memoryId)))
    semanticCategories := (st.semanticCategories.map
      (fun p => (p.1, p.2.filter (fun id => id ≠ memoryId))))
    domainClusters := (st.domainClusters.map
      (fun p => (p.1, p.2.filter (fun id => id ≠ memoryId))))
    embeddingBuckets := st.embeddingBuckets }

/-- Stable insertion into a list sorted ascending by timestamp (ties keep the
existing element first), modelling JS's stable
`sort((a, b) => a[1].timestamp - b[1].timestamp)`. -/
def insertAscByTs : List (String × MemoryEntry) → (String × MemoryEntry) →
    List (String × MemoryEntry)
  | [], x => [x]
  | y :: t, x =>
    if y.2.timestamp ≤ x.2.timestamp then y :: insertAscByTs t x else x :: y :: t

/-- Stable ascending sort of map entries by timestamp. -/
def sortByTs (l : List (String × MemoryEntry)) : List (String × MemoryEntry) :=
  l.foldl insertAscByTs []

/-- `maintainMemoryLimits()`: while over capacity, remove the oldest
entries. -/
def maintainMemoryLimits (st : MemState) : MemState :=
  if st.memoryStore.length ≤ st.maxMemories then st
  else
    let sortedMemories := sortByTs st.memoryStore
    let toRemove := sortedMemories.take (st.memoryStore.length - st.maxMemories)
    toRemove.foldl (fun s p => removeMemory p.1 s) st

/-- The intermediate state of `storeMemory` after the canonical insert and
the four index fan-outs, just before relationship discovery. -/
noncomputable def insertIndexSteps (memoryId : String) (entry : MemoryEntry)
    (st : MemState) : MemState :=
  let st1 := { st with memoryStore := mapSet st.memoryStore memoryId entry }
  let st2 := indexEmbeddings memoryId entry st1
  let st3 := updateTemporalIndices memoryId entry st2
  let st4 := updateSemanticCategories memoryId entry st3
  updateDomainClusters memoryId entry st4

/-- The full mutation sequence of `storeMemory` applied to an already-built
entry: canonical insert, index fan-out, relationship discovery, concept
clustering, capacity maintenance. -/
noncomputable def insertEntry (memoryId newClusterId : String)
    (entry : MemoryEntry) (st : MemState) : MemState :=
  let st5 := insertIndexSteps memoryId entry st
  let st6 := discoverRelationships memoryId entry st5
  let st7 := updateConceptClusters memoryId newClusterId entry st6
  maintainMemoryLimits st7

/-- `getMemoryClusters(memoryId)`. -/
def getMemoryClusters (memoryId : String) (st : MemState) : List String :=
  (st.conceptClusters.filter (fun p => memoryId ∈ p.2.members)).map (fun p => p.1)

/-- The result object of a successful `storeMemory`. -/
structure StoreResult where
  memoryId : Option String
  stored : Bool
  relationships : Nat
  clusters : Nat
  error : Option String

/-- `storeMemory(orchestrationResult)`.  The generated id and cluster id
(`Date.now()` plus a random suffix) are parameters.  Every model operation is
total, so the `catch` branch of the source is unreachable here; it is
represented by the `error` field staying `none`. -/
noncomputable def storeMemory (memoryId newClusterId : String)
    (r : OrchestrationResult) (st : MemState) : StoreResult × MemState :=
  let memoryEntry := createMemoryEntry memoryId r
  let st8 := insertEntry memoryId newClusterId memoryEntry st
  (⟨some memoryId, true,
    ((alookup st8.relationshipGraph memoryId).getD []).length,
    (getMemoryClusters memoryId st8).length, none⟩, st8)

/-! ### Read path (`searchMemories`) -/

structure SearchOptions where
  limit : Nat
  threshold : ℝ
  includeRelationships : Bool
  temporalFilter : Option (Int × Int)
  domainFilter : Option String
  categoryFilter : Option String

/-- The option defaults of `searchMemories`. -/
noncomputable def defaultSearchOptions : SearchOptions :=
  ⟨10, 0.7, true, none, none, none⟩

/-- `generateMemorySummary(memory)`.  On stored entries,
`agentOutputs.text` has fields `{summary, confidence}`, so the source's probe
of `.text?.textAnalysis?.summary` finds no such property and falls back to
`''`; likewise for the vision branch.  Only the orchestrator branch can be
non-empty. -/
def generateMemorySummary (m : MemoryEntry) : String :=
  let unifiedSummary := (m.agentOutputs.orchestrator.unifiedAnalysis).take 200
  if unifiedSummary ≠ "" then unifiedSummary ++ "..."
  else "No summary available"

structure SimResult where
  memoryId : String
  similarity : ℝ
  memory : MemoryEntry
  url : String
  timestamp : Int
  summary : String

structure RelatedMemory where
  type : String
  strength : ℝ
  memory : MemoryEntry

/-- A search result row; `relationships` is present only when the
`includeRelationships` option was set. -/
structure ResultItem where
  memoryId : String
  similarity : ℝ
  memory : MemoryEntry
  url : String
  timestamp : Int
  summary : String
  relationships : Option (List RelatedMemory)

/-- `findSimilarMemories(queryEmbedding, threshold)`: `[]` on a missing query
embedding, else a linear scan of the embedding index.  Reading `memory.url`
of an id absent from the canonical table would throw in JS; that is the
`Except.error` branch (caught by `searchMemories`). -/
noncomputable def findSimilarMemories (st : MemState)
    (queryEmbedding : Option (List ℝ)) (threshold : ℝ) :
    Except String (List SimResult) :=
  match queryEmbedding with
  | none => Except.ok []
  | some qe =>
    st.embeddingIndex.foldl
      (fun acc p =>
        match acc with
        | Except.error e => Except.error e
        | Except.ok l =>
          let similarity := calculateCosineSimilarity qe p.2.unified
          if threshold ≤ similarity then
            match alookup st.memoryStore p.1 with
            | some memory =>
              Except.ok (l ++ [⟨p.1, similarity, memory, memory.url,
                memory.timestamp, generateMemorySummary memory⟩])
            | none => Except.error "Cannot read properties of undefined"
          else Except.ok l)
      (Except.ok [])

/-- `applyFilters(results, filters)`. -/
def applyFilters (results : List SimResult) (opts : SearchOptions) :
    List SimResult :=
  let afterDomain :=
    match opts.domainFilter with
    | none => results
    | some d => results.filter (fun r => r.memory.domain = d)
  let afterCategory :=
    match opts.categoryFilter with
    | none => afterDomain
    | some c =>
      afterDomain.filter (fun r => c ∈ r.memory.semanticFeatures.categories)
  match opts.temporalFilter with
  | none => afterCategory
  | some se =>
    afterCategory.filter
      (fun r => se.1 ≤ r.memory.timestamp ∧ r.memory.timestamp ≤ se.2)

/-- `enhanceWithRelationships(results)`: attach each row's graph neighbours,
silently dropping edges whose target is no longer in the canonical table. -/
def enhanceWithRelationships (st : MemState) (results : List SimResult) :
    List ResultItem :=
  results.map
    (fun r =>
      let relationships := (alookup st.relationshipGraph r.memoryId).getD []
      let relatedMemories := relationships.foldl
        (fun acc rel =>
          match alookup st.memoryStore rel.targetId with
          | some m => acc ++ [⟨rel.type, rel.strength, m⟩]
          | none => acc) []
      ⟨r.memoryId, r.similarity, r.memory, r.url, r.timestamp, r.summary,
        some relatedMemories⟩)

/-- The plain (non-enhanced) result row. -/
def plainResultItem (r : SimResult) : ResultItem :=
  ⟨r.memoryId, r.similarity, r.memory, r.url, r.timestamp, r.summary, none⟩

/-- JS division modelling `x / n` on floats: `none` stands for the non-finite
outcome when `n = 0` (for the one use below the numerator is then also 0, so
`none` is exactly `NaN = 0 / 0`). -/
noncomputable def jsDivOpt (a : ℝ) (n : Nat) : Option ℝ :=
  if n = 0 then none else some (a / (n : ℝ))

structure SearchMetrics where
  queryEmbeddingGenerated : Bool
  memoryStoreSize : Nat
  averageSimilarity : Option ℝ

/-- The return value of `searchMemories`; the `catch` branch produces
`searchMetrics = none` and `error = some msg`. -/
structure SearchResult where
  query : String
  results : List ResultItem
  totalFound : Nat
  searchMetrics : Option SearchMetrics
  error : Option String

/-- `searchMemories(query, options)`.  The embedding-provider outcome
(`generateQueryEmbedding`, which resolves to the vector or to `null` when the
HTTP call fails) is the parameter `queryEmbedding`. -/
noncomputable def searchMemories (st : MemState) (query : String)
    (opts : SearchOptions) (queryEmbedding : Option (List ℝ)) : SearchResult :=
  match findSimilarMemories st queryEmbedding opts.threshold with
  | Except.error msg => ⟨query, [], 0, none, some msg⟩
  | Except.ok similarities =>
    let filteredResults := applyFilters similarities opts
    let ranked := (sortDescBy (fun r => r.similarity) filteredResults).take opts.limit
    let final :=
      if opts.includeRelationships then enhanceWithRelationships st ranked
      else ranked.map plainResultItem
    ⟨query, final, final.length,
      some ⟨queryEmbedding.isSome, st.memoryStore.length,
        jsDivOpt (final.foldl (fun s r => s + r.similarity) 0) final.length⟩,
      none⟩

/-! ### Specification-side topic contract (for claim C9) -/

/-- Stable insertion into a list sorted descending by a `Nat` key. -/
def insertDescByNat {α : Type} (key : α → Nat) : List α → α → List α
  | [], x => [x]
  | y :: t, x =>
    if key x ≤ key y then y :: insertDescByNat key t x else x :: y :: t

/-- Stable descending sort by a `Nat` key. -/
def sortDescByNat {α : Type} (key : α → Nat) (l : List α) : List α :=
  l.foldl (insertDescByNat key) []

/-- The topic-derivation contract exactly as the specification words it:
"topics are the top-N (N=10) longest non-stopword tokens in the combined
analysis text, lowercased, de-duplicated, order-preserving by first
occurrence".  (Empty fragments of whitespace splitting are not tokens.) -/
def specContractTopics (r : OrchestrationResult) : List String :=
  let textSummary :=
    (((r.agentResults.text.bind (fun t => t.textAnalysis)).bind
      (fun a => a.summary)).getD "")
  let visionSynthesis :=
    (((r.agentResults.vision.bind (fun v => v.visionAnalysis)).bind
      (fun a => a.synthesis)).getD "")
  let combined := textSummary ++ " " ++ visionSynthesis
  let tokens := dedupFirst
    ((splitWs (lowerString combined)).filter
      (fun w => !(commonWords.contains w) && !(w == "")))
  let selected := (sortDescByNat (fun w => w.length) tokens).take 10
  tokens.filter (fun w => selected.contains w)

/-! ### Vector lemmas for cosine similarity -/

/-- The norm used by the source: `Math.sqrt` of the sum of squares. -/
noncomputable def vecNorm (v : List ℝ) : ℝ :=
  Real.sqrt ((v.map (fun x => x * x)).sum)

theorem sumsq_nonneg (v : List ℝ) : 0 ≤ (v.map (fun x => x * x)).sum := by
  induction v with
  | nil => simp
  | cons x t ih =>
    simp only [List.map_cons, List.sum_cons]
    have hx := mul_self_nonneg x
    linarith

theorem sumsq_pos {v : List ℝ} {x : ℝ} (hx : x ∈ v) (hx0 : x ≠ 0) :
    0 < (v.map (fun y => y * y)).sum := by
  induction v with
  | nil => simp at hx
  | cons y t ih =>
    simp only [List.map_cons, List.sum_cons]
    rcases List.mem_cons.mp hx with h | h
    · have : 0 < y * y := by
        subst h
        exact mul_self_pos.mpr hx0
      have ht := sumsq_nonneg t
      linarith
    · have := ih h
      have hy := mul_self_nonneg y
      linarith

theorem dot_self (v : List ℝ) :
    ((v.zip v).map (fun p => p.1 * p.2)).sum = (v.map (fun x => x * x)).sum := by
  induction v with
  | nil => simp
  | cons x t ih => simp [ih]

theorem dot_scale (c : ℝ) (v : List ℝ) :
    ((v.zip (v.map (fun x => c * x))).map (fun p => p.1 * p.2)).sum =
      c * (v.map (fun x => x * x)).sum := by
  induction v with
  | nil => simp
  | cons x t ih =>
    simp only [List.map_cons, List.zip_cons_cons, List.sum_cons, ih]
    ring

theorem sumsq_scale (c : ℝ) (v : List ℝ) :
    ((v.map (fun x => c * x)).map (fun x => x * x)).sum =
      c ^ 2 * (v.map (fun x => x * x)).sum := by
  induction v with
  | nil => simp
  | cons x t ih =>
    simp only [List.map_cons, List.sum_cons, ih]
    ring

theorem vecNorm_eq_zero {v : List ℝ} :
    vecNorm v = 0 ↔ (v.map (fun x => x * x)).sum = 0 := by
  unfold vecNorm
  rw [Real.sqrt_eq_zero (sumsq_nonneg v)]

/-- Claim C5: `calculateCosineSimilarity` is 0 on mismatched lengths and on a
zero norm, equals `dot / (norm * norm)` otherwise, and is exactly 1 on
`(v, v)` and on `(v, c • v)` for `c > 0` and nonzero `v`. -/
theorem c5_cosine_similarity (a b z1 z2 n1 n2 v w : List ℝ) (c : ℝ) :
    (a.length ≠ b.length → calculateCosineSimilarity a b = 0)
    ∧ (z1.length = z2.length → (vecNorm z1 = 0 ∨ vecNorm z2 = 0) →
        calculateCosineSimilarity z1 z2 = 0)
    ∧ (n1.length = n2.length → vecNorm n1 ≠ 0 → vecNorm n2 ≠ 0 →
        calculateCosineSimilarity n1 n2 =
          ((n1.zip n2).map (fun p => p.1 * p.2)).sum / (vecNorm n1 * vecNorm n2))
    ∧ ((∃ x ∈ v, x ≠ 0) → calculateCosineSimilarity v v = 1)
    ∧ (0 < c → (∃ x ∈ w, x ≠ 0) →
        calculateCosineSimilarity w (w.map (fun x => c * x)) = 1) := by
  refine ⟨?_, ?_, ?_, ?_, ?_⟩
  · intro h
    unfold calculateCosineSimilarity
    rw [if_pos h]
  · intro hlen h0
    unfold calculateCosineSimilarity
    rw [if_neg (fun hh => hh hlen)]
    have : Real.sqrt ((z1.map (fun x => x * x)).sum) *
        Real.sqrt ((z2.map (fun x => x * x)).sum) = 0 := by
      rcases h0 with h0 | h0
      · rw [vecNorm] at h0
        rw [h0, zero_mul]
      · rw [vecNorm] at h0
        rw [h0, mul_zero]
    simp [this]
  · intro hlen h1 h2
    unfold calculateCosineSimilarity
    rw [if_neg (fun hh => hh hlen)]
    have hden : Real.sqrt ((n1.map (fun x => x * x)).sum) *
        Real.sqrt ((n2.map (fun x => x * x)).sum) ≠ 0 :=
      mul_ne_zero h1 h2
    rw [if_neg hden]
    rfl
  · rintro ⟨x, hx, hx0⟩
    unfold calculateCosineSimilarity
    rw [if_neg (fun hh => hh rfl)]
    dsimp only
    have hpos : 0 < (v.map (fun y => y * y)).sum := sumsq_pos hx hx0
    have hs : Real.sqrt ((v.map (fun y => y * y)).sum) *
        Real.sqrt ((v.map (fun y => y * y)).sum) = (v.map (fun y => y * y)).sum :=
      Real.mul_self_sqrt (le_of_lt hpos)
    rw [hs]
    rw [if_neg (ne_of_gt hpos)]
    rw [dot_self]
    exact div_self (ne_of_gt hpos)
  · intro hc
    rintro ⟨x, hx, hx0⟩
    unfold calculateCosineSimilarity
    rw [if_neg (fun hh => hh (by simp))]
    dsimp only
    have hpos : 0 < (w.map (fun y => y * y)).sum := sumsq_pos hx hx0
    have hsq : ((w.map (fun y => c * y)).map (fun y => y * y)).sum =
        c ^ 2 * (w.map (fun y => y * y)).sum := sumsq_scale c w
    rw [hsq, dot_scale]
    have h2 : Real.sqrt (c ^ 2 * (w.map (fun y => y * y)).sum) =
        c * Real.sqrt ((w.map (fun y => y * y)).sum) := by
      rw [Real.sqrt_mul (sq_nonneg c), Real.sqrt_sq (le_of_lt hc)]
    rw [h2]
    have hss : Real.sqrt ((w.map (fun y => y * y)).sum) *
        (c * Real.sqrt ((w.map (fun y => y * y)).sum)) =
        c * (w.map (fun y => y * y)).sum := by
      rw [mul_comm (Real.sqrt _) (c * _), mul_assoc,
        Real.mul_self_sqrt (le_of_lt hpos)]
    rw [hss]
    have hne : c * (w.map (fun y => y * y)).sum ≠ 0 :=
      mul_ne_zero (ne_of_gt hc) (ne_of_gt hpos)
    rw [if_neg hne]
    exact div_self hne

/-- Witness for C5 at concrete vectors. -/
theorem c5_cosine_similarity_witness :
    (([(1 : ℝ)] : List ℝ).length ≠ ([] : List ℝ).length ∧
      calculateCosineSimilarity [(1 : ℝ)] [] = 0)
    ∧ (vecNorm [(0 : ℝ)] = 0 ∧ calculateCosineSimilarity [(0 : ℝ)] [(5 : ℝ)] = 0)
    ∧ (vecNorm [(1 : ℝ)] ≠ 0 ∧ vecNorm [(2 : ℝ)] ≠ 0 ∧
        calculateCosineSimilarity [(1 : ℝ)] [(2 : ℝ)] =
          (([(1 : ℝ)].zip [(2 : ℝ)]).map (fun p => p.1 * p.2)).sum /
            (vecNorm [(1 : ℝ)] * vecNorm [(2 : ℝ)]))
    ∧ ((3 : ℝ) ≠ 0 ∧ calculateCosineSimilarity [(3 : ℝ)] [(3 : ℝ)] = 1)
    ∧ ((0 : ℝ) < 2 ∧
        calculateCosineSimilarity [(3 : ℝ)] ([(3 : ℝ)].map (fun x => (2 : ℝ) * x)) = 1) := by
  have h := c5_cosine_similarity [(1 : ℝ)] [] [(0 : ℝ)] [(5 : ℝ)] [(1 : ℝ)]
    [(2 : ℝ)] [(3 : ℝ)] [(3 : ℝ)] 2
  have hz : vecNorm [(0 : ℝ)] = 0 := by
    unfold vecNorm
    simp
  have h1 : vecNorm [(1 : ℝ)] ≠ 0 := by
    unfold vecNorm
    rw [Real.sqrt_ne_zero']
    norm_num
  have h2 : vecNorm [(2 : ℝ)] ≠ 0 := by
    unfold vecNorm
    rw [Real.sqrt_ne_zero']
    norm_num
  refine ⟨⟨by simp, h.1 (by simp)⟩, ⟨hz, h.2.1 rfl (Or.inl hz)⟩,
    ⟨h1, h2, h.2.2.1 rfl h1 h2⟩,
    ⟨by norm_num, h.2.2.2.1 ⟨3, by simp, by norm_num⟩⟩,
    ⟨by norm_num, h.2.2.2.2 (by norm_num) ⟨3, by simp, by norm_num⟩⟩⟩

theorem applyFilters_nil (opts : SearchOptions) : applyFilters [] opts = [] := by
  rcases opts with ⟨l, th, inc, tf, df, cf⟩
  cases df <;> cases cf <;> cases tf <;> rfl

/-- Claim C8: when the embedding provider fails (no query embedding),
`searchMemories` returns an empty result list and zero `totalFound`, the
failure is indicated by `searchMetrics.queryEmbeddingGenerated = false`
(with the average similarity left as the non-finite 0/0), and the `error`
path is not taken; the model is a total function, so no exception can
propagate. -/
theorem c8_search_degrades (st : MemState) (query : String)
    (opts : SearchOptions) :
    (searchMemories st query opts none).results = []
    ∧ (searchMemories st query opts none).totalFound = 0
    ∧ (searchMemories st query opts none).searchMetrics =
        some ⟨false, st.memoryStore.length, none⟩
    ∧ (searchMemories st query opts none).error = none := by
  have hfind : findSimilarMemories st none opts.threshold = Except.ok [] := rfl
  unfold searchMemories
  rw [hfind]
  dsimp only
  rw [applyFilters_nil]
  have hsort : sortDescBy (fun r => r.similarity) ([] : List SimResult) = [] := rfl
  rw [hsort]
  have htake : ([] : List SimResult).take opts.limit = [] := List.take_nil
  rw [htake]
  cases hinc : opts.includeRelationships <;> simp [enhanceWithRelationships, jsDivOpt]

/-- Claim C10: whenever `searchMemories` completes without taking the `catch`
branch and with an empty filtered result list, the returned
`searchMetrics.averageSimilarity` is the unguarded division of 0 by the
result count 0 — NaN, modelled as `none`. -/
theorem c10_empty_average_nan (st : MemState) (query : String)
    (opts : SearchOptions) (queryEmbedding : Option (List ℝ))
    (herr : (searchMemories st query opts queryEmbedding).error = none)
    (hres : (searchMemories st query opts queryEmbedding).results = []) :
    ∃ m, (searchMemories st query opts queryEmbedding).searchMetrics = some m
      ∧ m.averageSimilarity = none := by
  unfold searchMemories at herr hres ⊢
  cases hfind : findSimilarMemories st queryEmbedding opts.threshold with
  | error msg =>
    rw [hfind] at herr
    simp at herr
  | ok similarities =>
    rw [hfind] at hres
    dsimp only at hres ⊢
    refine ⟨_, rfl, ?_⟩
    rw [hres]
    simp [jsDivOpt]

/-- Witness for C10: a search on an empty store with a failed embedding
provider. -/
theorem c10_empty_average_nan_witness :
    (searchMemories (emptyState 5) "q" defaultSearchOptions none).error = none
    ∧ (searchMemories (emptyState 5) "q" defaultSearchOptions none).results = []
    ∧ ∃ m, (searchMemories (emptyState 5) "q" defaultSearchOptions none).searchMetrics
        = some m ∧ m.averageSimilarity = none :=
  ⟨rfl, rfl, c10_empty_average_nan (emptyState 5) "q" defaultSearchOptions none rfl rfl⟩

/-! ### Claim C9: topic derivation -/

/-- The text-analysis summary probed by `extractTopics` (`''` when absent). -/
def textSummaryOf (r : OrchestrationResult) : String :=
  (((r.agentResults.text.bind (fun t => t.textAnalysis)).bind
    (fun a => a.summary)).getD "")

/-- The vision synthesis probed by `extractTopics` (`''` when absent). -/
def visionSynthesisOf (r : OrchestrationResult) : String :=
  (((r.agentResults.vision.bind (fun v => v.visionAnalysis)).bind
    (fun a => a.synthesis)).getD "")

theorem dedupFirst_go_nodup (l : List String) (acc : List String)
    (h : acc.Nodup) :
    (l.foldl (fun acc x => if x ∈ acc then acc else acc ++ [x]) acc).Nodup := by
  induction l generalizing acc with
  | nil => exact h
  | cons x t ih =>
    simp only [List.foldl_cons]
    by_cases hx : x ∈ acc
    · rw [if_pos hx]
      exact ih acc h
    · rw [if_neg hx]
      refine ih _ (List.nodup_append.mpr ⟨h, List.nodup_singleton x, ?_⟩)
      intro a ha hax
      rw [List.mem_singleton] at hax
      exact hx (hax ▸ ha)

theorem dedupFirst_nodup (l : List String) : (dedupFirst l).Nodup :=
  dedupFirst_go_nodup l [] List.nodup_nil

theorem mem_dedupFirst_go (l : List String) (acc : List String) (y : String) :
    y ∈ l.foldl (fun acc x => if x ∈ acc then acc else acc ++ [x]) acc ↔
      y ∈ acc ∨ y ∈ l := by
  induction l generalizing acc with
  | nil => simp
  | cons x t ih =>
    simp only [List.foldl_cons]
    by_cases hx : x ∈ acc
    · rw [if_pos hx, ih]
      constructor
      · rintro (h | h)
        · exact Or.inl h
        · exact Or.inr (List.mem_cons_of_mem x h)
      · rintro (h | h)
        · exact Or.inl h
        · rcases List.mem_cons.mp h with h | h
          · exact Or.inl (h ▸ hx)
          · exact Or.inr h
    · rw [if_neg hx, ih]
      constructor
      · rintro (h | h)
        · rcases List.mem_append.mp h with h | h
          · exact Or.inl h
          · exact Or.inr (List.mem_cons.mpr (Or.inl (List.mem_singleton.mp h)))
        · exact Or.inr (List.mem_cons_of_mem x h)
      · rintro (h | h)
        · exact Or.inl (List.mem_append.mpr (Or.inl h))
        · rcases List.mem_cons.mp h with h | h
          · exact Or.inl (List.mem_append.mpr (Or.inr (List.mem_singleton.mpr h)))
          · exact Or.inr h

theorem mem_dedupFirst (l : List String) (y : String) :
    y ∈ dedupFirst l ↔ y ∈ l := by
  unfold dedupFirst
  rw [mem_dedupFirst_go]
  simp

theorem mem_extractTopicsFromText {s : String} {t : String}
    (h : t ∈ extractTopicsFromText s) :
    3 < t.length ∧ t ∉ commonWords ∧ t ∈ splitWs (lowerString s) := by
  unfold extractTopicsFromText at h
  have h1 := List.take_subset 5 _ h
  have h2 := List.mem_of_mem_filter h1
  have h3 := List.of_mem_filter h1
  rw [Bool.and_eq_true] at h3
  refine ⟨of_decide_eq_true h3.1, ?_, h2⟩
  intro hmem
  have hc := h3.2
  rw [Bool.not_eq_true'] at hc
  have : commonWords.contains t = true := by
    simpa using List.elem_eq_true_of_mem hmem
  rw [this] at hc
  exact Bool.noConfusion hc

/-- Claim C9 (amended): the derived topics are, for each of the text summary
and the vision synthesis, the first 5 whitespace tokens of the lowercased
text that are longer than 3 characters and not stop words, concatenated in
that order, de-duplicated keeping first occurrences, truncated to 10; in
particular every topic is such a token and the list is duplicate-free with at
most 10 entries. -/
theorem c9_amended_topics (r : OrchestrationResult) :
    extractTopics r =
      (dedupFirst (extractTopicsFromText (textSummaryOf r) ++
        extractTopicsFromText (visionSynthesisOf r))).take 10
    ∧ (extractTopics r).Nodup
    ∧ (extractTopics r).length ≤ 10
    ∧ (∀ t ∈ extractTopics r, 3 < t.length ∧ t ∉ commonWords ∧
        (t ∈ splitWs (lowerString (textSummaryOf r)) ∨
         t ∈ splitWs (lowerString (visionSynthesisOf r)))) := by
  refine ⟨rfl, ?_, ?_, ?_⟩
  · exact List.Nodup.sublist (List.take_sublist _ _) (dedupFirst_nodup _)
  · exact List.length_take_le _ _
  · intro t ht
    have h1 : t ∈ dedupFirst (extractTopicsFromText (textSummaryOf r) ++
        extractTopicsFromText (visionSynthesisOf r)) :=
      List.take_subset _ _ ht
    rw [mem_dedupFirst] at h1
    rcases List.mem_append.mp h1 with h | h
    · obtain ⟨hl, hw, hm⟩ := mem_extractTopicsFromText h
      exact ⟨hl, hw, Or.inl hm⟩
    · obtain ⟨hl, hw, hm⟩ := mem_extractTopicsFromText h
      exact ⟨hl, hw, Or.inr hm⟩

/-- A raw result whose text summary has six qualifying tokens, the longest
one last. -/
def exTopicsResult : OrchestrationResult :=
  { timestamp := 0
    url := "https://example.com/a"
    agentId := "orchestrator-1"
    agentResults :=
      { text := some
          { textAnalysis := some
              { summary := some "abcd bcde cdef defg efgh superlongtoken"
                metadata := none }
            confidence := none
            agentId := none }
        vision := none }
    orchestratorSynthesis :=
      { unifiedAnalysis := none, confidence := none, agentAgreement := none }
    qualityMetrics := { overallScore := 0 }
    orchestrationMetadata := { processingTime := 0, synthesisApproach := "v" } }

/-- Counterexample to C9 as stated: the source keeps only the FIRST five
qualifying tokens of each analysis text (in textual order), so the longest
token `superlongtoken` — which the claimed "top 10 longest" contract must
keep — is dropped. -/
theorem c9_counterexample :
    extractTopics exTopicsResult = ["abcd", "bcde", "cdef", "defg", "efgh"]
    ∧ specContractTopics exTopicsResult =
        ["abcd", "bcde", "cdef", "defg", "efgh", "superlongtoken"]
    ∧ extractTopics exTopicsResult ≠ specContractTopics exTopicsResult := by
  refine ⟨by decide, by decide, by decide⟩

/-- Witness for the amended C9 at the same concrete input. -/
theorem c9_amended_topics_witness :
    "abcd" ∈ extractTopics exTopicsResult
    ∧ (3 < "abcd".length ∧ "abcd" ∉ commonWords ∧
        ("abcd" ∈ splitWs (lowerString (textSummaryOf exTopicsResult)) ∨
         "abcd" ∈ splitWs (lowerString (visionSynthesisOf exTopicsResult)))) :=
  ⟨by decide, (c9_amended_topics exTopicsResult).2.2.2 "abcd" (by decide)⟩

/-! ### Claim C2: removal -/

theorem alookup_map_val {α β : Type} (m : List (String × α)) (f : α → β)
    (k : String) :
    alookup (m.map (fun p => (p.1, f p.2))) k = (alookup m k).map f := by
  induction m with
  | nil => simp
  | cons p t ih => by_cases h : p.1 = k <;> simp [h, ih]

theorem alookup_map_cluster_filter (m : List (String × Cluster)) (id k : String) :
    alookup (m.map (fun p => (p.1, { p.2 with
        members := p.2.members.filter (fun i => i ≠ id) }))) k =
      (alookup m k).map (fun c => { c with
        members := c.members.filter (fun i => i ≠ id) }) := by
  induction m with
  | nil => simp
  | cons p t ih =>
    by_cases h : p.1 = k
    · simp [h]
    · simpa [h] using ih

theorem not_mem_filter_ne (xs : List String) (id : String) :
    id ∉ xs.filter (fun i => i ≠ id) := by
  intro h
  have := List.of_mem_filter h
  simp at this

theorem forall_map_filter_ne (m : List (String × List String)) (id : String) :
    ∀ p ∈ m.map (fun p => (p.1, p.2.filter (fun i => i ≠ id))), id ∉ p.2 := by
  intro p hp
  obtain ⟨q, _, rfl⟩ := List.mem_map.mp hp
  exact not_mem_filter_ne q.2 id

theorem removeFirstEdgeTo_all_ne (id : String) (l : List RelEdge)
    (h : (l.filter (fun e => e.targetId = id)).length ≤ 1) :
    ∀ e ∈ removeFirstEdgeTo id l, e.targetId ≠ id := by
  induction l with
  | nil => intro e he; simp [removeFirstEdgeTo] at he
  | cons r t ih =>
    intro e he
    by_cases hr : r.targetId = id
    · rw [removeFirstEdgeTo, if_pos hr] at he
      rw [List.filter_cons_of_pos (by simpa using hr)] at h
      have h0 : (t.filter (fun e => decide (e.targetId = id))).length = 0 := by
        simp only [List.length_cons] at h
        omega
      intro hei
      have hmem : e ∈ t.filter (fun e => decide (e.targetId = id)) :=
        List.mem_filter.mpr ⟨he, by simpa using hei⟩
      rw [List.length_eq_zero] at h0
      rw [h0] at hmem
      simp at hmem
    · rw [removeFirstEdgeTo, if_neg hr] at he
      rcases List.mem_cons.mp he with hh | hh
      · exact hh ▸ hr
      · rw [List.filter_cons_of_neg (by simpa using hr)] at h
        exact ih h e hh

/-- Claim C2 (amended): `removeMemory(id)` deletes `id` from the canonical
table, the embedding index, every temporal bucket, every category entry,
every domain entry, every cluster's member set and the relationship graph's
own entry — but it does NOT recompute any surviving cluster's centroid (the
cluster keeps its old centroid verbatim), and from every other record's edge
list it strips only the FIRST edge whose `targetId` is `id`, so the
no-dangling-reference consequence holds only for edge lists carrying at most
one edge to the removed id. -/
theorem c2_amended_remove (id : String) (st : MemState) :
    alookup (removeMemory id st).memoryStore id = none
    ∧ alookup (removeMemory id st).embeddingIndex id = none
    ∧ (∀ p ∈ (removeMemory id st).temporalHour, id ∉ p.2)
    ∧ (∀ p ∈ (removeMemory id st).temporalDay, id ∉ p.2)
    ∧ (∀ p ∈ (removeMemory id st).temporalWeek, id ∉ p.2)
    ∧ (∀ p ∈ (removeMemory id st).temporalMonth, id ∉ p.2)
    ∧ (∀ p ∈ (removeMemory id st).semanticCategories, id ∉ p.2)
    ∧ (∀ p ∈ (removeMemory id st).domainClusters, id ∉ p.2)
    ∧ (∀ p ∈ (removeMemory id st).conceptClusters, id ∉ p.2.members)
    ∧ alookup (removeMemory id st).relationshipGraph id = none
    ∧ (∀ k c, alookup st.conceptClusters k = some c →
        alookup (removeMemory id st).conceptClusters k =
          some { c with members := c.members.filter (fun i => i ≠ id) })
    ∧ (∀ k l, alookup st.relationshipGraph k = some l → k ≠ id →
        alookup (removeMemory id st).relationshipGraph k =
          some (removeFirstEdgeTo id l))
    ∧ (∀ k l, alookup st.relationshipGraph k = some l → k ≠ id →
        (l.filter (fun e => e.targetId = id)).length ≤ 1 →
        ∃ l', alookup (removeMemory id st).relationshipGraph k = some l' ∧
          ∀ e ∈ l', e.targetId ≠ id) := by
  refine ⟨lookup_mapDelete_self _ _, lookup_mapDelete_self _ _,
    forall_map_filter_ne _ _, forall_map_filter_ne _ _,
    forall_map_filter_ne _ _, forall_map_filter_ne _ _,
    forall_map_filter_ne _ _, forall_map_filter_ne _ _,
    ?_, ?_, ?_, ?_, ?_⟩
  · intro p hp
    obtain ⟨q, _, rfl⟩ := List.mem_map.mp hp
    exact not_mem_filter_ne q.2.members id
  · show alookup ((mapDelete st.relationshipGraph id).map
      (fun p => (p.1, removeFirstEdgeTo id p.2))) id = none
    rw [alookup_map_val, lookup_mapDelete_self]
    rfl
  · intro k c hc
    have := alookup_map_cluster_filter st.conceptClusters id k
    rw [hc] at this
    exact this
  · intro k l hl hk
    show alookup ((mapDelete st.relationshipGraph id).map
      (fun p => (p.1, removeFirstEdgeTo id p.2))) k = _
    rw [alookup_map_val, lookup_mapDelete_ne _ _ _ (fun hh => hk hh.symm), hl]
    rfl
  · intro k l hl hk hcount
    refine ⟨removeFirstEdgeTo id l, ?_, removeFirstEdgeTo_all_ne id l hcount⟩
    show alookup ((mapDelete st.relationshipGraph id).map
      (fun p => (p.1, removeFirstEdgeTo id p.2))) k = _
    rw [alookup_map_val, lookup_mapDelete_ne _ _ _ (fun hh => hk hh.symm), hl]
    rfl

/-- A minimal stored record used by concrete states and witnesses. -/
noncomputable def mkSimpleEntry (id : String) (ts : Int) (domain url : String)
    (unified : Option (List ℝ)) (categories : List String) : MemoryEntry :=
  { memoryId := id
    timestamp := ts
    url := url
    domain := domain
    agentOutputs :=
      { text := { summary := "", confidence := 0 }
        vision := { synthesis := "", confidence := 0 }
        orchestrator := { unifiedAnalysis := "", confidence := 0 } }
    embeddingsTensor :=
      { unified := unified, text := none, vision := none, dimension := 0 }
    semanticFeatures :=
      { contentType := "general", pageType := "page", topics := [],
        categories := categories, quality := 0, confidence := none }
    temporalFeatures :=
      { hour := getHoursOf ts, dayOfWeek := getDayOf ts,
        month := getMonthOf ts, season := getSeason (getMonthOf ts) }
    provenance :=
      { textAgent := none, visionAgent := none, orchestratorAgent := "o",
        processingTime := 0, synthesisApproach := "v", overallScore := 0,
        agentAgreement := none } }

/-- A populated store: records A and B share the concept cluster `c` (B's
embedding has cosine similarity 0.96 to A's, above the 0.85 threshold), whose
centroid is the mean of their embeddings; B carries one graph edge to A. -/
noncomputable def exRemoveState : MemState :=
  { maxMemories := 100
    memoryStore :=
      [("A", mkSimpleEntry "A" 100 "example.com" "https://example.com/"
          (some [1, 0]) ["general"]),
       ("B", mkSimpleEntry "B" 200 "example.com" "https://example.com/"
          (some [0.96, 0.28]) ["general"])]
    embeddingIndex :=
      [("A", ⟨[1, 0], none, none, 2⟩), ("B", ⟨[0.96, 0.28], none, none, 2⟩)]
    conceptClusters := [("c", ⟨"c", [0.98, 0.14], ["A", "B"], "general: ", 0⟩)]
    relationshipGraph := [("B", [⟨"domain-related", "A", 0.7⟩])]
    temporalHour := [("h1", ["A", "B"])]
    temporalDay := [("d1", ["A", "B"])]
    temporalWeek := [("w1", ["A", "B"])]
    temporalMonth := [("m1", ["A", "B"])]
    semanticCategories := [("general", ["A", "B"])]
    domainClusters := [("example.com", ["A", "B"])]
    embeddingBuckets := [] }

/-- Counterexample to C2 as stated: after `removeMemory "A"` the surviving
cluster `c` keeps its old centroid `[0.98, 0.14]` verbatim, while the
arithmetic mean of the surviving member's embedding (B's `[0.96, 0.28]`,
still in the embedding index) differs — the centroid is NOT recomputed. -/
theorem c2_counterexample :
    alookup (removeMemory "A" exRemoveState).conceptClusters "c" =
      some ⟨"c", [0.98, 0.14], ["B"], "general: ", 0⟩
    ∧ alookup (removeMemory "A" exRemoveState).embeddingIndex "B" =
        some ⟨[0.96, 0.28], none, none, 2⟩
    ∧ ([0.98, 0.14] : List ℝ) ≠ [0.96, 0.28] := by
  refine ⟨rfl, rfl, ?_⟩
  intro h
  rw [List.cons.injEq] at h
  have := h.1
  norm_num at this

/-- Witness for the amended C2, instantiated at the concrete state above. -/
theorem c2_amended_remove_witness :
    (("h1", ["B"]) ∈ (removeMemory "A" exRemoveState).temporalHour ∧ "A" ∉ ["B"])
    ∧ (("d1", ["B"]) ∈ (removeMemory "A" exRemoveState).temporalDay ∧ "A" ∉ ["B"])
    ∧ (("w1", ["B"]) ∈ (removeMemory "A" exRemoveState).temporalWeek ∧ "A" ∉ ["B"])
    ∧ (("m1", ["B"]) ∈ (removeMemory "A" exRemoveState).temporalMonth ∧ "A" ∉ ["B"])
    ∧ (("general", ["B"]) ∈ (removeMemory "A" exRemoveState).semanticCategories ∧ "A" ∉ ["B"])
    ∧ (("example.com", ["B"]) ∈ (removeMemory "A" exRemoveState).domainClusters ∧ "A" ∉ ["B"])
    ∧ alookup (removeMemory "A" exRemoveState).memoryStore "A" = none
    ∧ alookup (removeMemory "A" exRemoveState).relationshipGraph "A" = none
    ∧ (alookup exRemoveState.conceptClusters "c" =
        some ⟨"c", [0.98, 0.14], ["A", "B"], "general: ", 0⟩ ∧
      alookup (removeMemory "A" exRemoveState).conceptClusters "c" =
        some { (⟨"c", [0.98, 0.14], ["A", "B"], "general: ", 0⟩ : Cluster) with
          members := ["A", "B"].filter (fun i => i ≠ "A") })
    ∧ (alookup exRemoveState.relationshipGraph "B" =
        some [⟨"domain-related", "A", 0.7⟩] ∧ ("B" : String) ≠ "A" ∧
      (([⟨"domain-related", "A", 0.7⟩] : List RelEdge).filter
        (fun e => e.targetId = "A")).length ≤ 1 ∧
      ∃ l', alookup (removeMemory "A" exRemoveState).relationshipGraph "B" = some l' ∧
        ∀ e ∈ l', e.targetId ≠ "A") := by
  have h := c2_amended_remove "A" exRemoveState
  have hh : ("h1", ["B"]) ∈ (removeMemory "A" exRemoveState).temporalHour := by
    show _ ∈ exRemoveState.temporalHour.map (fun p => (p.1, p.2.filter (fun i => i ≠ "A")))
    simp [exRemoveState]
  have hd : ("d1", ["B"]) ∈ (removeMemory "A" exRemoveState).temporalDay := by
    show _ ∈ exRemoveState.temporalDay.map (fun p => (p.1, p.2.filter (fun i => i ≠ "A")))
    simp [exRemoveState]
  have hw : ("w1", ["B"]) ∈ (removeMemory "A" exRemoveState).temporalWeek := by
    show _ ∈ exRemoveState.temporalWeek.map (fun p => (p.1, p.2.filter (fun i => i ≠ "A")))
    simp [exRemoveState]
  have hmo : ("m1", ["B"]) ∈ (removeMemory "A" exRemoveState).temporalMonth := by
    show _ ∈ exRemoveState.temporalMonth.map (fun p => (p.1, p.2.filter (fun i => i ≠ "A")))
    simp [exRemoveState]
  have hca : ("general", ["B"]) ∈ (removeMemory "A" exRemoveState).semanticCategories := by
    show _ ∈ exRemoveState.semanticCategories.map (fun p => (p.1, p.2.filter (fun i => i ≠ "A")))
    simp [exRemoveState]
  have hdo : ("example.com", ["B"]) ∈ (removeMemory "A" exRemoveState).domainClusters := by
    show _ ∈ exRemoveState.domainClusters.map (fun p => (p.1, p.2.filter (fun i => i ≠ "A")))
    simp [exRemoveState]
  exact ⟨⟨hh, h.2.2.1 _ hh⟩, ⟨hd, h.2.2.2.1 _ hd⟩, ⟨hw, h.2.2.2.2.1 _ hw⟩,
    ⟨hmo, h.2.2.2.2.2.1 _ hmo⟩, ⟨hca, h.2.2.2.2.2.2.1 _ hca⟩,
    ⟨hdo, h.2.2.2.2.2.2.2.1 _ hdo⟩, h.1, h.2.2.2.2.2.2.2.2.2.1,
    ⟨rfl, h.2.2.2.2.2.2.2.2.2.2.1 "c" ⟨"c", [0.98, 0.14], ["A", "B"], "general: ", 0⟩ rfl⟩,
    ⟨rfl, by decide, by decide,
      h.2.2.2.2.2.2.2.2.2.2.2.2 "B" [⟨"domain-related", "A", 0.7⟩] rfl (by decide) (by decide)⟩⟩

/-! ### Claim C4: cluster assignment -/

theorem setAdd_ne_nil (s : List String) (x : String) : setAdd s x ≠ [] := by
  unfold setAdd
  split
  · rename_i hx
    intro h
    rw [h] at hx
    simp at hx
  · intro h
    simp at h

theorem getD_map_range (f : Nat → ℝ) (d i : Nat) (h : i < d) :
    ((List.range d).map f).getD i 0 = f i := by
  rw [List.getD_eq_getElem?_getD, List.getElem?_map, List.getElem?_range h]
  rfl

theorem map_range_getD_of_length (acc : List ℝ) (d : Nat) (h : acc.length = d) :
    (List.range d).map (fun i => acc.getD i 0) = acc := by
  subst h
  induction acc with
  | nil => simp
  | cons x t ih =>
    rw [List.length_cons, List.range_succ_eq_map, List.map_cons, List.map_map]
    have hcomp : ((fun i => (x :: t).getD i 0) ∘ Nat.succ) = fun i => t.getD i 0 :=
      funext (fun i => List.getD_cons_succ)
    rw [hcomp, ih]
    rfl

theorem accumVec_eq (c e : List ℝ) (d : Nat) (hc : c.length = d)
    (he : e.length = d) :
    accumVec c e = (List.range d).map (fun i => c.getD i 0 + e.getD i 0) := by
  unfold accumVec
  rw [hc, he, max_self]

theorem length_accumVec (c e : List ℝ) :
    (accumVec c e).length = max c.length e.length := by
  unfold accumVec
  rw [List.length_map, List.length_range]

theorem foldl_accumVec_eq (l : List (List ℝ)) (acc : List ℝ) (d : Nat)
    (hacc : acc.length = d) (hl : ∀ e ∈ l, e.length = d) :
    l.foldl accumVec acc =
      (List.range d).map
        (fun i => acc.getD i 0 + (l.map (fun e => e.getD i 0)).sum) := by
  induction l generalizing acc with
  | nil =>
    simp only [List.foldl_nil, List.map_nil, List.sum_nil, add_zero]
    exact (map_range_getD_of_length acc d hacc).symm
  | cons e t ih =>
    rw [List.foldl_cons]
    have he : e.length = d := hl e (List.mem_cons_self e t)
    have hlen : (accumVec acc e).length = d := by
      rw [length_accumVec, hacc, he, max_self]
    rw [ih (accumVec acc e) hlen (fun x hx => hl x (List.mem_cons_of_mem e hx))]
    apply List.map_congr_left
    intro i hi
    rw [List.mem_range] at hi
    rw [accumVec_eq acc e d hacc he, getD_map_range _ _ _ hi]
    simp only [List.map_cons, List.sum_cons]
    ring

/-- The member embeddings collected by `updateClusterCentroid` from the
embedding index. -/
def memberEmbeddings (members : List String)
    (embIndex : List (String × EmbIdxEntry)) : List (List ℝ) :=
  members.foldl
    (fun acc mid =>
      match alookup embIndex mid with
      | some e => acc ++ [e.unified]
      | none => acc) []

/-- The mean of the collected member embeddings, as computed by
`updateClusterCentroid` under equal dimensions: the per-coordinate arithmetic
mean. -/
theorem centroid_is_mean (embeddings : List (List ℝ)) (e0 : List ℝ)
    (rest : List (List ℝ)) (d : Nat) (hsplit : embeddings = e0 :: rest)
    (hd : ∀ e ∈ embeddings, e.length = d) :
    (embeddings.foldl accumVec (List.replicate e0.length 0)).map
        (fun x => x / (embeddings.length : ℝ)) =
      (List.range d).map
        (fun i => (embeddings.map (fun e => e.getD i 0)).sum /
          (embeddings.length : ℝ)) := by
  have he0 : e0.length = d := hd e0 (hsplit ▸ List.mem_cons_self e0 rest)
  rw [foldl_accumVec_eq embeddings (List.replicate e0.length 0) d
    (by rw [List.length_replicate, he0]) hd]
  rw [List.map_map]
  apply List.map_congr_left
  intro i hi
  rw [List.mem_range] at hi
  simp only [Function.comp]
  rw [List.getD_eq_getElem?_getD, List.getElem?_replicate]
  rw [if_pos (by rw [he0]; exact hi)]
  simp

theorem centroid_single (u : List ℝ) :
    (([u] : List (List ℝ)).foldl accumVec (List.replicate u.length 0)).map
      (fun x => x / ((([u] : List (List ℝ)).length : Nat) : ℝ)) = u := by
  rw [foldl_accumVec_eq [u] _ u.length (List.length_replicate _ _)
    (by intro e he; rw [List.mem_singleton] at he; rw [he])]
  rw [List.map_map]
  have : ∀ i ∈ List.range u.length,
      ((fun x => x / ((([u] : List (List ℝ)).length : Nat) : ℝ)) ∘
        (fun i => (List.replicate u.length (0 : ℝ)).getD i 0 +
          (([u] : List (List ℝ)).map (fun e => e.getD i 0)).sum)) i =
      u.getD i 0 := by
    intro i hi
    rw [List.mem_range] at hi
    simp only [Function.comp, List.map_cons, List.map_nil, List.sum_cons,
      List.sum_nil, List.length_singleton]
    rw [List.getD_eq_getElem?_getD, List.getElem?_replicate, if_pos hi]
    simp
  rw [List.map_congr_left this]
  exact map_range_getD_of_length u u.length rfl

/-- Behaviour of `updateClusterCentroid` on a cluster with nonempty
members. -/
theorem updateClusterCentroid_spec (clusterId : String) (st : MemState)
    (cl : Cluster) (hlook : alookup st.conceptClusters clusterId = some cl)
    (hne : cl.members ≠ []) :
    (memberEmbeddings cl.members st.embeddingIndex = [] →
      updateClusterCentroid clusterId st = st)
    ∧ (∀ e0 rest, memberEmbeddings cl.members st.embeddingIndex = e0 :: rest →
        updateClusterCentroid clusterId st =
          { st with conceptClusters := (mapSet st.conceptClusters clusterId
              { cl with
                centroid := ((memberEmbeddings cl.members
                    st.embeddingIndex).foldl
                  accumVec (List.replicate e0.length 0)).map
                    (fun x => x / ((memberEmbeddings cl.members
                      st.embeddingIndex).length : ℝ))
                lastUpdated := 0 }) }) := by
  constructor
  · intro hemb
    simp only [memberEmbeddings] at hemb
    unfold updateClusterCentroid
    rw [hlook]
    dsimp only
    rw [if_neg hne, hemb]
  · intro e0 rest hemb
    have hemb' := hemb
    simp only [memberEmbeddings] at hemb'
    unfold updateClusterCentroid
    rw [hlook]
    dsimp only
    rw [if_neg hne, hemb']
    simp only [memberEmbeddings]
    rw [hemb']

/-- Claim C4 (amended): for a new record with embedding `v`, the store joins
the FIRST cluster in map iteration order whose centroid similarity exceeds
0.85 — not necessarily the cluster achieving the maximum similarity — adding
the id to its members and recomputing the centroid as the per-coordinate
arithmetic mean of the member embeddings found in the embedding index; when
no cluster exceeds the threshold, a fresh sole-member cluster is created
whose centroid (after the recompute pass) is the record's indexed
embedding. -/
theorem c4_amended_clusters (memoryId newClusterId : String)
    (entry : MemoryEntry) (st : MemState) (v : List ℝ)
    (hv : entry.embeddingsTensor.unified = some v) :
    (∀ cid c,
      st.conceptClusters.find?
          (fun p => decide (0.85 < calculateCosineSimilarity v p.2.centroid)) =
        some (cid, c) →
      alookup st.conceptClusters cid = some c →
      ∃ c', alookup (updateConceptClusters memoryId newClusterId entry
          st).conceptClusters cid = some c'
        ∧ c'.members = setAdd c.members memoryId
        ∧ (∀ e0 rest d,
            memberEmbeddings (setAdd c.members memoryId) st.embeddingIndex =
              e0 :: rest →
            (∀ e ∈ memberEmbeddings (setAdd c.members memoryId)
              st.embeddingIndex, e.length = d) →
            c'.centroid = (List.range d).map
              (fun i => ((memberEmbeddings (setAdd c.members memoryId)
                  st.embeddingIndex).map (fun e => e.getD i 0)).sum /
                ((memberEmbeddings (setAdd c.members memoryId)
                  st.embeddingIndex).length : ℝ))))
    ∧ (st.conceptClusters.find?
          (fun p => decide (0.85 < calculateCosineSimilarity v p.2.centroid)) =
        none →
      (∀ p ∈ st.conceptClusters,
        calculateCosineSimilarity v p.2.centroid ≤ 0.85)
      ∧ (alookup st.conceptClusters newClusterId = none →
        ∃ c', alookup (updateConceptClusters memoryId newClusterId entry
            st).conceptClusters newClusterId = some c'
          ∧ c'.members = setAdd [] memoryId
          ∧ (∀ em, alookup st.embeddingIndex memoryId = some em →
              c'.centroid = em.unified)
          ∧ (alookup st.embeddingIndex memoryId = none →
              c'.centroid = v))) := by
  constructor
  · intro cid c hfind hlook
    have hred : updateConceptClusters memoryId newClusterId entry st =
        updateClusterCentroid cid
          { st with conceptClusters := (mapSet st.conceptClusters cid
              { c with members := setAdd c.members memoryId }) } := by
      unfold updateConceptClusters
      rw [hv]
      dsimp only
      unfold findOrCreateConceptCluster
      rw [hfind]
      dsimp only
      rw [if_pos (by rw [hlook]; rfl), hlook]
    have hlook2 : alookup ({ st with conceptClusters :=
        (mapSet st.conceptClusters cid
          { c with members := setAdd c.members memoryId }) } :
          MemState).conceptClusters cid =
        some { c with members := setAdd c.members memoryId } :=
      lookup_mapSet_self _ _ _
    have hspec := updateClusterCentroid_spec cid _ _ hlook2 (setAdd_ne_nil _ _)
    dsimp only at hspec
    rw [hred]
    cases hemb : memberEmbeddings (setAdd c.members memoryId)
        st.embeddingIndex with
    | nil =>
      rw [hemb] at hspec
      rw [hspec.1 rfl]
      exact ⟨{ c with members := setAdd c.members memoryId }, hlook2, rfl,
        fun e0 rest d h1 _ => absurd h1 (by simp)⟩
    | cons e0 rest =>
      rw [hemb] at hspec
      rw [hspec.2 e0 rest rfl]
      refine ⟨_, lookup_mapSet_self _ _ _, rfl, ?_⟩
      intro e0' rest' d h1 hd
      exact centroid_is_mean (e0 :: rest) e0 rest d rfl hd
  · intro hfind
    constructor
    · intro p hp
      have := List.find?_eq_none.mp hfind p hp
      rw [decide_eq_true_eq] at this
      exact le_of_not_lt this
    · intro hfresh
      have hred : updateConceptClusters memoryId newClusterId entry st =
          updateClusterCentroid newClusterId
            { st with conceptClusters :=
                (mapSet
                  (mapSet st.conceptClusters newClusterId
                    ⟨newClusterId, v, [],
                      inferConceptFromFeatures entry.semanticFeatures, 0⟩)
                  newClusterId
                  ⟨newClusterId, v, setAdd [] memoryId,
                    inferConceptFromFeatures entry.semanticFeatures, 0⟩) } := by
        unfold updateConceptClusters
        rw [hv]
        dsimp only
        unfold findOrCreateConceptCluster
        rw [hfind]
        dsimp only
        rw [if_neg (by rw [hfresh]; simp)]
        dsimp only
        rw [lookup_mapSet_self]
      have hlook2 : alookup ({ st with conceptClusters :=
          (mapSet
            (mapSet st.conceptClusters newClusterId
              ⟨newClusterId, v, [],
                inferConceptFromFeatures entry.semanticFeatures, 0⟩)
            newClusterId
            ⟨newClusterId, v, setAdd [] memoryId,
              inferConceptFromFeatures entry.semanticFeatures, 0⟩) } :
            MemState).conceptClusters newClusterId =
          some ⟨newClusterId, v, setAdd [] memoryId,
            inferConceptFromFeatures entry.semanticFeatures, 0⟩ :=
        lookup_mapSet_self _ _ _
      have hspec := updateClusterCentroid_spec newClusterId _ _ hlook2
        (by exact setAdd_ne_nil [] memoryId)
      dsimp only at hspec
      rw [hred]
      cases hidx : alookup st.embeddingIndex memoryId with
      | none =>
        have hemb : memberEmbeddings (setAdd [] memoryId)
            st.embeddingIndex = [] := by
          have hsa : setAdd [] memoryId = [memoryId] := by simp [setAdd]
          rw [hsa]
          simp only [memberEmbeddings, List.foldl_cons, List.foldl_nil]
          show (match alookup st.embeddingIndex memoryId with
            | some e => ([] : List (List ℝ)) ++ [e.unified]
            | none => ([] : List (List ℝ))) = []
          rw [hidx]
        rw [hemb] at hspec
        rw [hspec.1 rfl]
        exact ⟨_, hlook2, rfl, fun em hem => absurd hem (by simp), fun _ => rfl⟩
      | some em =>
        have hemb : memberEmbeddings (setAdd [] memoryId)
            st.embeddingIndex = [em.unified] := by
          have hsa : setAdd [] memoryId = [memoryId] := by simp [setAdd]
          rw [hsa]
          simp only [memberEmbeddings, List.foldl_cons, List.foldl_nil]
          show (match alookup st.embeddingIndex memoryId with
            | some e => ([] : List (List ℝ)) ++ [e.unified]
            | none => ([] : List (List ℝ))) = [em.unified]
          rw [hidx]
          rfl
        rw [hemb] at hspec
        rw [hspec.2 em.unified [] rfl]
        refine ⟨_, lookup_mapSet_self _ _ _, rfl, ?_, ?_⟩
        · intro em' hem'
          have hee : em = em' := by injection hem'
          subst hee
          exact centroid_single em.unified
        · intro hnone
          exact absurd hnone (by simp)

theorem sim_12_5 : calculateCosineSimilarity [1, 0] [12, 5] = 12 / 13 := by
  unfold calculateCosineSimilarity
  rw [if_neg (by simp)]
  dsimp only
  simp only [List.zip_cons_cons, List.zip_nil_right, List.map_cons,
    List.map_nil, List.sum_cons, List.sum_nil]
  rw [show (1 * 1 + (0 * 0 + 0) : ℝ) = 1 by norm_num,
    show (12 * 12 + (5 * 5 + 0) : ℝ) = 169 by norm_num,
    show (1 * 12 + (0 * 5 + 0) : ℝ) = 12 by norm_num]
  rw [Real.sqrt_one, show (169 : ℝ) = 13 ^ 2 by norm_num,
    Real.sqrt_sq (by norm_num : (0 : ℝ) ≤ 13)]
  rw [if_neg (by norm_num)]
  norm_num

theorem sim_1_0_self : calculateCosineSimilarity [1, 0] [1, 0] = 1 := by
  unfold calculateCosineSimilarity
  rw [if_neg (by simp)]
  dsimp only
  simp only [List.zip_cons_cons, List.zip_nil_right, List.map_cons,
    List.map_nil, List.sum_cons, List.sum_nil]
  rw [show (1 * 1 + (0 * 0 + 0) : ℝ) = 1 by norm_num]
  rw [Real.sqrt_one]
  rw [if_neg (by norm_num)]
  norm_num

/-- Two clusters whose centroids both match a `[1, 0]` query above the 0.85
threshold; the second one (`c2`) achieves the maximum similarity 1, but the
first one (`c1`, similarity 12/13) comes first in map iteration order. -/
noncomputable def exClusterState : MemState :=
  { emptyState 100 with
    memoryStore :=
      [("m1", mkSimpleEntry "m1" 10 "example.com" "https://example.com/"
          (some [12, 5]) []),
       ("m2", mkSimpleEntry "m2" 20 "example.org" "https://example.org/"
          (some [1, 0]) [])]
    embeddingIndex :=
      [("m1", ⟨[12, 5], none, none, 2⟩), ("m2", ⟨[1, 0], none, none, 2⟩)]
    conceptClusters :=
      [("c1", ⟨"c1", [12, 5], ["m1"], "general: ", 0⟩),
       ("c2", ⟨"c2", [1, 0], ["m2"], "general: ", 0⟩)] }

theorem exClusterState_find :
    exClusterState.conceptClusters.find?
        (fun p => decide (0.85 < calculateCosineSimilarity [1, 0]
          p.2.centroid)) =
      some ("c1", ⟨"c1", [12, 5], ["m1"], "general: ", 0⟩) := by
  have hcc : exClusterState.conceptClusters =
      [("c1", ⟨"c1", [12, 5], ["m1"], "general: ", 0⟩),
       ("c2", ⟨"c2", [1, 0], ["m2"], "general: ", 0⟩)] := rfl
  rw [hcc]
  apply List.find?_cons_of_pos
  show decide (0.85 < calculateCosineSimilarity [1, 0] [12, 5]) = true
  exact decide_eq_true (by rw [sim_12_5]; norm_num)

/-- Counterexample to C4 as stated: with both clusters above the threshold,
`findOrCreateConceptCluster` returns `c1` (the first in iteration order)
although the maximum similarity is achieved by `c2` (similarity 1 versus
12/13), so the record does NOT join the cluster achieving the maximum. -/
theorem c4_counterexample :
    findOrCreateConceptCluster "fresh" [1, 0] exClusterState = "c1"
    ∧ (0.85 : ℝ) < calculateCosineSimilarity [1, 0] [12, 5]
    ∧ calculateCosineSimilarity [1, 0] [12, 5] <
        calculateCosineSimilarity [1, 0] [1, 0]
    ∧ alookup exClusterState.conceptClusters "c2" =
        some ⟨"c2", [1, 0], ["m2"], "general: ", 0⟩
    ∧ ("c1" : String) ≠ "c2" := by
  refine ⟨?_, by rw [sim_12_5]; norm_num,
    by rw [sim_12_5, sim_1_0_self]; norm_num, rfl, by decide⟩
  unfold findOrCreateConceptCluster
  rw [exClusterState_find]

/-- Witness for the amended C4: the record `m3` (embedding `[1, 0]`) joins
`c1`, the first cluster above the threshold, and the centroid is recomputed
as the mean of the indexed member embeddings. -/
theorem c4_amended_clusters_witness :
    (mkSimpleEntry "m3" 30 "example.net" "https://example.net/"
        (some [1, 0]) []).embeddingsTensor.unified = some [1, 0]
    ∧ exClusterState.conceptClusters.find?
        (fun p => decide (0.85 < calculateCosineSimilarity [1, 0]
          p.2.centroid)) =
      some ("c1", ⟨"c1", [12, 5], ["m1"], "general: ", 0⟩)
    ∧ alookup exClusterState.conceptClusters "c1" =
        some ⟨"c1", [12, 5], ["m1"], "general: ", 0⟩
    ∧ memberEmbeddings (setAdd ["m1"] "m3") exClusterState.embeddingIndex =
        [[12, 5]]
    ∧ (∀ e ∈ memberEmbeddings (setAdd ["m1"] "m3")
        exClusterState.embeddingIndex, e.length = 2)
    ∧ ∃ c', alookup (updateConceptClusters "m3" "fresh"
          (mkSimpleEntry "m3" 30 "example.net" "https://example.net/"
            (some [1, 0]) []) exClusterState).conceptClusters "c1" = some c'
        ∧ c'.members = setAdd ["m1"] "m3"
        ∧ c'.centroid = (List.range 2).map
            (fun i => ((memberEmbeddings (setAdd ["m1"] "m3")
                exClusterState.embeddingIndex).map (fun e => e.getD i 0)).sum /
              ((memberEmbeddings (setAdd ["m1"] "m3")
                exClusterState.embeddingIndex).length : ℝ)) := by
  have hdim : ∀ e ∈ memberEmbeddings (setAdd ["m1"] "m3")
      exClusterState.embeddingIndex, e.length = 2 := by
    intro e he
    have : e ∈ ([[12, 5]] : List (List ℝ)) := by
      have hmm : memberEmbeddings (setAdd ["m1"] "m3")
          exClusterState.embeddingIndex = [[12, 5]] := rfl
      rw [← hmm]
      exact he
    rw [List.mem_singleton] at this
    rw [this]
    rfl
  obtain ⟨c', h1, h2, h3⟩ :=
    (c4_amended_clusters "m3" "fresh"
      (mkSimpleEntry "m3" 30 "example.net" "https://example.net/"
        (some [1, 0]) []) exClusterState [1, 0] rfl).1
      "c1" ⟨"c1", [12, 5], ["m1"], "general: ", 0⟩ exClusterState_find rfl
  exact ⟨rfl, exClusterState_find, rfl, rfl, hdim,
    c', h1, h2, h3 [12, 5] [] 2 rfl hdim⟩

/-! ### Shape lemmas for the insert pipeline -/

theorem maintainMemoryLimits_noop (st : MemState)
    (h : st.memoryStore.length ≤ st.maxMemories) :
    maintainMemoryLimits st = st := by
  unfold maintainMemoryLimits
  rw [if_pos h]

theorem discoverRelationships_shape (id : String) (e : MemoryEntry)
    (st : MemState) :
    ∃ g, discoverRelationships id e st = { st with relationshipGraph := g } :=
  ⟨_, rfl⟩

theorem updateClusterCentroid_shape (cid : String) (st : MemState) :
    ∃ cc, updateClusterCentroid cid st = { st with conceptClusters := cc } := by
  unfold updateClusterCentroid
  split
  · exact ⟨st.conceptClusters, rfl⟩
  · split
    · exact ⟨st.conceptClusters, rfl⟩
    · dsimp only
      split
      · exact ⟨st.conceptClusters, rfl⟩
      · exact ⟨_, rfl⟩

theorem updateClusterCentroid_shape2 (cid : String) (stb : MemState)
    (cc0 : List (String × Cluster)) :
    ∃ cc, updateClusterCentroid cid { stb with conceptClusters := cc0 } =
      { stb with conceptClusters := cc } := by
  obtain ⟨cc, hcc⟩ :=
    updateClusterCentroid_shape cid { stb with conceptClusters := cc0 }
  exact ⟨cc, hcc⟩

theorem updateConceptClusters_shape (id cid : String) (e : MemoryEntry)
    (st : MemState) :
    ∃ cc, updateConceptClusters id cid e st =
      { st with conceptClusters := cc } := by
  unfold updateConceptClusters
  split
  · exact ⟨st.conceptClusters, rfl⟩
  · dsimp only
    split
    · split
      · exact ⟨st.conceptClusters, rfl⟩
      · exact ⟨_, rfl⟩
    · split
      · exact updateClusterCentroid_shape2 _ st _
      · exact updateClusterCentroid_shape2 _ st _

/-- Abbreviation: the state right after `storeMemory`'s canonical insert and
the four index fan-outs, for an entry with unified embedding `v`. -/
noncomputable def stAfterIndex (id : String) (e : MemoryEntry) (v : List ℝ)
    (st : MemState) : MemState :=
  { st with
    memoryStore := mapSet st.memoryStore id e
    embeddingIndex := (mapSet st.embeddingIndex id
      ⟨v, e.embeddingsTensor.text, e.embeddingsTensor.vision,
        e.embeddingsTensor.dimension⟩)
    embeddingBuckets := (mapSet st.embeddingBuckets
      (calculateEmbeddingBucket (some v))
      (setAdd ((alookup st.embeddingBuckets
        (calculateEmbeddingBucket (some v))).getD []) id))
    temporalHour := addToBucket st.temporalHour (hourKeyOf e.timestamp) id
    temporalDay := addToBucket st.temporalDay (dayKeyOf e.timestamp) id
    temporalWeek := addToBucket st.temporalWeek (weekKeyOf e.timestamp) id
    temporalMonth := addToBucket st.temporalMonth (monthKeyOf e.timestamp) id
    semanticCategories := (e.semanticFeatures.categories.foldl
      (fun m category => addToBucket m category id) st.semanticCategories)
    domainClusters := addToBucket st.domainClusters e.domain id }

theorem insertIndexSteps_eq (id : String) (e : MemoryEntry) (st : MemState)
    (v : List ℝ) (hv : e.embeddingsTensor.unified = some v) :
    insertIndexSteps id e st = stAfterIndex id e v st := by
  unfold insertIndexSteps indexEmbeddings updateTemporalIndices
    updateSemanticCategories updateDomainClusters stAfterIndex
  dsimp only
  rw [hv]

theorem insertEntry_eq (id cid : String) (e : MemoryEntry) (st : MemState)
    (v : List ℝ) (hv : e.embeddingsTensor.unified = some v)
    (hcap : (mapSet st.memoryStore id e).length ≤ st.maxMemories) :
    ∃ g cc, insertEntry id cid e st =
      { stAfterIndex id e v st with
          relationshipGraph := g
          conceptClusters := cc } := by
  obtain ⟨g, hg⟩ := discoverRelationships_shape id e (stAfterIndex id e v st)
  obtain ⟨cc, hcc⟩ := updateConceptClusters_shape id cid e
    { stAfterIndex id e v st with relationshipGraph := g }
  refine ⟨g, cc, ?_⟩
  unfold insertEntry
  dsimp only
  rw [insertIndexSteps_eq id e st v hv, hg, hcc]
  apply maintainMemoryLimits_noop
  exact hcap

/-! ### Claim C1: fan-out invariant -/

theorem length_mapSet_fresh {α : Type} (m : List (String × α)) (k : String)
    (v : α) (h : alookup m k = none) :
    (mapSet m k v).length = m.length + 1 := by
  unfold mapSet
  rw [h]
  simp

theorem mem_addToBucket_self (m : List (String × List String))
    (key id : String) :
    id ∈ (alookup (addToBucket m key id) key).getD [] := by
  unfold addToBucket
  cases h : alookup m key with
  | none =>
    rw [lookup_mapSet_self]
    exact mem_setAdd_self [] id
  | some s =>
    rw [lookup_mapSet_self]
    exact mem_setAdd_self s id

theorem mem_mapSet_of_ne {α : Type} {m : List (String × α)} {k : String}
    {v : α} {p : String × α} (hp : p ∈ mapSet m k v) (hne : p.1 ≠ k) :
    p ∈ m := by
  unfold mapSet at hp
  split at hp
  · obtain ⟨q, hq, hpq⟩ := List.mem_map.mp hp
    by_cases h : q.1 = k
    · rw [if_pos h] at hpq
      exact absurd (by rw [← hpq]) hne
    · rw [if_neg h] at hpq
      exact hpq ▸ hq
  · rcases List.mem_append.mp hp with h | h
    · exact h
    · rw [List.mem_singleton] at h
      exact absurd (by rw [h]) hne

theorem mem_addToBucket_of_ne {m : List (String × List String)}
    {key id : String} {p : String × List String}
    (hp : p ∈ addToBucket m key id) (hne : p.1 ≠ key) : p ∈ m := by
  unfold addToBucket at hp
  cases h : alookup m key with
  | none =>
    rw [h] at hp
    exact mem_mapSet_of_ne hp hne
  | some s =>
    rw [h] at hp
    exact mem_mapSet_of_ne hp hne

theorem addToBucket_preserve (m : List (String × List String))
    (k k' id : String) (h : id ∈ (alookup m k).getD []) :
    id ∈ (alookup (addToBucket m k' id) k).getD [] := by
  unfold addToBucket
  by_cases hkk : k' = k
  · subst hkk
    cases hm : alookup m k' with
    | none => rw [lookup_mapSet_self]; exact mem_setAdd_self [] id
    | some s => rw [lookup_mapSet_self]; exact mem_setAdd_self s id
  · cases hm : alookup m k' with
    | none => rw [lookup_mapSet_ne _ _ _ _ hkk]; exact h
    | some s => rw [lookup_mapSet_ne _ _ _ _ hkk]; exact h

theorem foldl_addToBucket_preserve (cats : List String)
    (m : List (String × List String)) (k id : String)
    (h : id ∈ (alookup m k).getD []) :
    id ∈ (alookup (cats.foldl (fun m c => addToBucket m c id) m) k).getD [] := by
  induction cats generalizing m with
  | nil => exact h
  | cons c rest ih =>
    rw [List.foldl_cons]
    exact ih _ (addToBucket_preserve m k c id h)

theorem foldl_addToBucket_mem (cats : List String)
    (m : List (String × List String)) (id : String) :
    ∀ c ∈ cats,
      id ∈ (alookup (cats.foldl (fun m c => addToBucket m c id) m) c).getD [] := by
  induction cats generalizing m with
  | nil => intro c hc; simp at hc
  | cons c0 rest ih =>
    intro c hc
    rw [List.foldl_cons]
    rcases List.mem_cons.mp hc with h | h
    · subst h
      exact foldl_addToBucket_preserve rest _ c id (mem_addToBucket_self m c id)
    · exact ih _ c h

/-- An id that no index of the store mentions (the generated ids of
`storeMemory` are fresh with overwhelming probability; the model makes the
assumption explicit). -/
def FreshId (id : String) (st : MemState) : Prop :=
  alookup st.memoryStore id = none
  ∧ alookup st.embeddingIndex id = none
  ∧ (∀ p ∈ st.temporalHour, id ∉ p.2)
  ∧ (∀ p ∈ st.temporalDay, id ∉ p.2)
  ∧ (∀ p ∈ st.temporalWeek, id ∉ p.2)
  ∧ (∀ p ∈ st.temporalMonth, id ∉ p.2)
  ∧ (∀ p ∈ st.semanticCategories, id ∉ p.2)
  ∧ (∀ p ∈ st.domainClusters, id ∉ p.2)

/-- Membership in exactly one bucket of a granularity: present under `key`,
absent from every other bucket. -/
def inBucketOnly (buckets : List (String × List String)) (key id : String) :
    Prop :=
  id ∈ (alookup buckets key).getD [] ∧ ∀ p ∈ buckets, p.1 ≠ key → id ∉ p.2

theorem inBucketOnly_addToBucket (m : List (String × List String))
    (key id : String) (hfresh : ∀ p ∈ m, id ∉ p.2) :
    inBucketOnly (addToBucket m key id) key id := by
  refine ⟨mem_addToBucket_self m key id, ?_⟩
  intro p hp hne
  exact hfresh p (mem_addToBucket_of_ne hp hne)

/-- Claim C1: inserting a record with a non-null unified embedding (via the
mutation sequence of `storeMemory`, under a fresh id and with no eviction
triggered) leaves its id in the embedding index, in exactly one temporal
bucket per granularity — keyed by the record's own timestamp — in the domain
index under its domain, in the category index under each of its categories,
and in the canonical table. -/
theorem c1_fanout_invariant (id cid : String) (e : MemoryEntry)
    (st : MemState) (v : List ℝ)
    (hv : e.embeddingsTensor.unified = some v)
    (hfresh : FreshId id st)
    (hcap : (mapSet st.memoryStore id e).length ≤ st.maxMemories) :
    alookup (insertEntry id cid e st).embeddingIndex id =
      some ⟨v, e.embeddingsTensor.text, e.embeddingsTensor.vision,
        e.embeddingsTensor.dimension⟩
    ∧ inBucketOnly (insertEntry id cid e st).temporalHour
        (hourKeyOf e.timestamp) id
    ∧ inBucketOnly (insertEntry id cid e st).temporalDay
        (dayKeyOf e.timestamp) id
    ∧ inBucketOnly (insertEntry id cid e st).temporalWeek
        (weekKeyOf e.timestamp) id
    ∧ inBucketOnly (insertEntry id cid e st).temporalMonth
        (monthKeyOf e.timestamp) id
    ∧ (∀ c ∈ e.semanticFeatures.categories,
        id ∈ (alookup (insertEntry id cid e st).semanticCategories c).getD [])
    ∧ id ∈ (alookup (insertEntry id cid e st).domainClusters e.domain).getD []
    ∧ alookup (insertEntry id cid e st).memoryStore id = some e := by
  obtain ⟨_, _, hTH, hTD, hTW, hTM, hSC, hDC⟩ := hfresh
  obtain ⟨g, cc, heq⟩ := insertEntry_eq id cid e st v hv hcap
  rw [heq]
  refine ⟨lookup_mapSet_self _ _ _,
    inBucketOnly_addToBucket _ _ _ hTH,
    inBucketOnly_addToBucket _ _ _ hTD,
    inBucketOnly_addToBucket _ _ _ hTW,
    inBucketOnly_addToBucket _ _ _ hTM,
    fun c hc => foldl_addToBucket_mem _ _ _ c hc,
    mem_addToBucket_self _ _ _,
    lookup_mapSet_self _ _ _⟩

/-- A concrete record with an embedding, for exercising C1. -/
noncomputable def exC1Entry : MemoryEntry :=
  mkSimpleEntry "w1" 0 "example.com" "https://example.com/" (some [2, 0])
    ["general"]

/-- Witness for C1: inserting a fresh embedded record into an empty store of
capacity 5. -/
theorem c1_fanout_invariant_witness :
    FreshId "w1" (emptyState 5)
    ∧ (mapSet (emptyState 5).memoryStore "w1" exC1Entry).length ≤
        (emptyState 5).maxMemories
    ∧ (alookup (insertEntry "w1" "cl1" exC1Entry
          (emptyState 5)).embeddingIndex "w1" = some ⟨[2, 0], none, none, 0⟩
      ∧ inBucketOnly (insertEntry "w1" "cl1" exC1Entry
          (emptyState 5)).temporalHour (hourKeyOf exC1Entry.timestamp) "w1"
      ∧ inBucketOnly (insertEntry "w1" "cl1" exC1Entry
          (emptyState 5)).temporalDay (dayKeyOf exC1Entry.timestamp) "w1"
      ∧ inBucketOnly (insertEntry "w1" "cl1" exC1Entry
          (emptyState 5)).temporalWeek (weekKeyOf exC1Entry.timestamp) "w1"
      ∧ inBucketOnly (insertEntry "w1" "cl1" exC1Entry
          (emptyState 5)).temporalMonth (monthKeyOf exC1Entry.timestamp) "w1"
      ∧ (∀ c ∈ exC1Entry.semanticFeatures.categories,
          "w1" ∈ (alookup (insertEntry "w1" "cl1" exC1Entry
            (emptyState 5)).semanticCategories c).getD [])
      ∧ "w1" ∈ (alookup (insertEntry "w1" "cl1" exC1Entry
          (emptyState 5)).domainClusters exC1Entry.domain).getD []
      ∧ alookup (insertEntry "w1" "cl1" exC1Entry
          (emptyState 5)).memoryStore "w1" = some exC1Entry) := by
  have hfresh : FreshId "w1" (emptyState 5) := by
    refine ⟨rfl, rfl, ?_, ?_, ?_, ?_, ?_, ?_⟩ <;> intro p hp <;> simp [emptyState] at hp
  have hcap : (mapSet (emptyState 5).memoryStore "w1" exC1Entry).length ≤
      (emptyState 5).maxMemories := by
    rw [length_mapSet_fresh (emptyState 5).memoryStore "w1" exC1Entry
      (by rfl)]
    norm_num [emptyState]
  exact ⟨hfresh, hcap,
    c1_fanout_invariant "w1" "cl1" exC1Entry (emptyState 5) [2, 0] rfl hfresh hcap⟩

/-! ### Claim C3: eviction policy -/

theorem take_append_left {α : Type} (l1 l2 : List α) (k : Nat)
    (h : k ≤ l1.length) : (l1 ++ l2).take k = l1.take k := by
  induction l1 generalizing k with
  | nil =>
    have hk : k = 0 := Nat.le_zero.mp (by simpa using h)
    subst hk
    simp
  | cons x t ih =>
    cases k with
    | zero => simp
    | succ k' =>
      simp only [List.cons_append, List.take_succ_cons]
      rw [ih k' (by simpa using h)]

theorem insertAscByTs_perm (l : List (String × MemoryEntry))
    (x : String × MemoryEntry) :
    List.Perm (insertAscByTs l x) (x :: l) := by
  induction l with
  | nil => exact List.Perm.refl _
  | cons y t ih =>
    unfold insertAscByTs
    split
    · exact (ih.cons y).trans (List.Perm.swap x y t)
    · exact List.Perm.refl _

theorem sortByTs_perm (l : List (String × MemoryEntry)) :
    List.Perm (sortByTs l) l := by
  suffices h : ∀ acc, List.Perm (l.foldl insertAscByTs acc) (acc ++ l) by
    simpa using h []
  induction l with
  | nil => intro acc; simp
  | cons x t ih =>
    intro acc
    rw [List.foldl_cons]
    exact ((ih (insertAscByTs acc x)).trans
      (List.Perm.append_right t (insertAscByTs_perm acc x))).trans
      List.perm_middle.symm

theorem insertAscByTs_sorted (l : List (String × MemoryEntry))
    (x : String × MemoryEntry)
    (h : l.Pairwise (fun a b => a.2.timestamp ≤ b.2.timestamp)) :
    (insertAscByTs l x).Pairwise (fun a b => a.2.timestamp ≤ b.2.timestamp) := by
  induction l with
  | nil => simp [insertAscByTs]
  | cons y t ih =>
    rw [List.pairwise_cons] at h
    unfold insertAscByTs
    split
    · rename_i hyx
      rw [List.pairwise_cons]
      refine ⟨?_, ih h.2⟩
      intro z hz
      rcases List.mem_cons.mp ((insertAscByTs_perm t x).mem_iff.mp hz) with
        hzx | hzt
      · rw [hzx]; exact hyx
      · exact h.1 z hzt
    · rename_i hyx
      rw [List.pairwise_cons]
      have hxy : x.2.timestamp ≤ y.2.timestamp := le_of_lt (lt_of_not_le hyx)
      refine ⟨?_, List.pairwise_cons.mpr ⟨h.1, h.2⟩⟩
      intro z hz
      rcases List.mem_cons.mp hz with hzy | hzt
      · rw [hzy]; exact hxy
      · exact le_trans hxy (h.1 z hzt)

theorem sortByTs_sorted (l : List (String × MemoryEntry)) :
    (sortByTs l).Pairwise (fun a b => a.2.timestamp ≤ b.2.timestamp) := by
  suffices h : ∀ acc, acc.Pairwise (fun a b => a.2.timestamp ≤ b.2.timestamp) →
      (l.foldl insertAscByTs acc).Pairwise
        (fun a b => a.2.timestamp ≤ b.2.timestamp) by
    exact h [] (List.Pairwise.nil)
  induction l with
  | nil => intro acc hacc; exact hacc
  | cons x t ih =>
    intro acc hacc
    rw [List.foldl_cons]
    exact ih _ (insertAscByTs_sorted acc x hacc)

theorem insertAscByTs_append_last (l : List (String × MemoryEntry))
    (x : String × MemoryEntry)
    (h : ∀ y ∈ l, y.2.timestamp ≤ x.2.timestamp) :
    insertAscByTs l x = l ++ [x] := by
  induction l with
  | nil => rfl
  | cons y t ih =>
    unfold insertAscByTs
    rw [if_pos (h y (List.mem_cons_self y t))]
    rw [ih (fun z hz => h z (List.mem_cons_of_mem y hz))]
    rfl

theorem sortByTs_concat_max (l : List (String × MemoryEntry))
    (x : String × MemoryEntry)
    (h : ∀ y ∈ l, y.2.timestamp ≤ x.2.timestamp) :
    sortByTs (l ++ [x]) = sortByTs l ++ [x] := by
  unfold sortByTs
  rw [List.foldl_append, List.foldl_cons, List.foldl_nil]
  apply insertAscByTs_append_last
  intro y hy
  exact h y ((sortByTs_perm l).mem_iff.mp hy)

theorem foldl_removeMemory_memoryStore
    (ids : List (String × MemoryEntry)) (st : MemState) :
    (ids.foldl (fun s p => removeMemory p.1 s) st).memoryStore =
      st.memoryStore.filter
        (fun p => !((ids.map Prod.fst).contains p.1)) := by
  induction ids generalizing st with
  | nil =>
    simp only [List.map_nil, List.foldl_nil]
    have : ∀ p : String × MemoryEntry,
        (!(([] : List String).contains p.1)) = true := by
      intro p
      rfl
    rw [List.filter_eq_self.mpr (fun p _ => this p)]
  | cons q rest ih =>
    rw [List.foldl_cons, ih]
    show (st.memoryStore.filter (fun p => p.1 ≠ q.1)).filter
        (fun p => !((rest.map Prod.fst).contains p.1)) = _
    rw [List.filter_filter]
    apply List.filter_congr
    intro p _
    by_cases hpq : p.1 = q.1 <;> simp [hpq, List.contains_cons, Bool.not_or]

theorem foldl_removeMemory_maxMemories
    (ids : List (String × MemoryEntry)) (st : MemState) :
    (ids.foldl (fun s p => removeMemory p.1 s) st).maxMemories =
      st.maxMemories := by
  induction ids generalizing st with
  | nil => rfl
  | cons q rest ih => rw [List.foldl_cons, ih]; rfl

theorem contains_eq_false_of_not_mem {l : List String} {a : String}
    (h : a ∉ l) : l.contains a = false := by
  by_contra hc
  rw [Bool.not_eq_false] at hc
  exact h (List.elem_iff.mp hc)

/-- Claim C3 (amended): when an insert leaves the table over capacity, the
maintenance step removes exactly the `size - maxMemories` oldest entries of
the stable timestamp sort — every removed entry is at least as old as every
survivor — leaving exactly `maxMemories` entries; and the most recently
inserted record (the last entry of the table, in map insertion order)
survives whenever `maxMemories ≥ 1` AND its timestamp is at least as recent
as every stored record's (without the timestamp condition it can be
evicted). -/
theorem c3_amended_eviction (st : MemState)
    (hnodup : (st.memoryStore.map Prod.fst).Nodup)
    (hover : st.maxMemories < st.memoryStore.length) :
    (maintainMemoryLimits st).memoryStore =
      st.memoryStore.filter
        (fun p => !((((sortByTs st.memoryStore).take
          (st.memoryStore.length - st.maxMemories)).map
            Prod.fst).contains p.1))
    ∧ (maintainMemoryLimits st).memoryStore.length = st.maxMemories
    ∧ (∀ r ∈ (sortByTs st.memoryStore).take
          (st.memoryStore.length - st.maxMemories),
        ∀ s ∈ (maintainMemoryLimits st).memoryStore,
          r.2.timestamp ≤ s.2.timestamp)
    ∧ (∀ front lp, st.memoryStore = front ++ [lp] →
        (∀ p ∈ st.memoryStore, p.2.timestamp ≤ lp.2.timestamp) →
        1 ≤ st.maxMemories →
        lp ∈ (maintainMemoryLimits st).memoryStore) := by
  have hperm := sortByTs_perm st.memoryStore
  have hfilter : (maintainMemoryLimits st).memoryStore =
      st.memoryStore.filter
        (fun p => !((((sortByTs st.memoryStore).take
          (st.memoryStore.length - st.maxMemories)).map
            Prod.fst).contains p.1)) := by
    unfold maintainMemoryLimits
    rw [if_neg (not_le.mpr hover)]
    exact foldl_removeMemory_memoryStore _ st
  have hkeysSorted : ((sortByTs st.memoryStore).map Prod.fst).Nodup :=
    ((hperm.map Prod.fst).nodup_iff).mpr hnodup
  have hsplit := List.take_append_drop
    (st.memoryStore.length - st.maxMemories) (sortByTs st.memoryStore)
  have htake0 : ∀ p ∈ (sortByTs st.memoryStore).take
      (st.memoryStore.length - st.maxMemories),
      ((((sortByTs st.memoryStore).take
        (st.memoryStore.length - st.maxMemories)).map
          Prod.fst).contains p.1) = true := by
    intro p hp
    exact List.elem_eq_true_of_mem (List.mem_map_of_mem Prod.fst hp)
  have hdisj : ∀ a ∈ ((sortByTs st.memoryStore).take
      (st.memoryStore.length - st.maxMemories)).map Prod.fst,
      a ∉ ((sortByTs st.memoryStore).drop
        (st.memoryStore.length - st.maxMemories)).map Prod.fst := by
    have := hkeysSorted
    rw [← hsplit, List.map_append] at this
    exact (List.nodup_append.mp this).2.2
  have hdrop1 : ∀ p ∈ (sortByTs st.memoryStore).drop
      (st.memoryStore.length - st.maxMemories),
      (!((((sortByTs st.memoryStore).take
        (st.memoryStore.length - st.maxMemories)).map
          Prod.fst).contains p.1)) = true := by
    intro p hp
    rw [contains_eq_false_of_not_mem]
    · rfl
    · intro hmem
      exact hdisj p.1 hmem (List.mem_map_of_mem Prod.fst hp)
  have hlen : (maintainMemoryLimits st).memoryStore.length = st.maxMemories := by
    rw [hfilter, ← List.countP_eq_length_filter]
    rw [← hperm.countP_eq]
    set pr : String × MemoryEntry → Bool :=
      fun p => !((((sortByTs st.memoryStore).take
        (st.memoryStore.length - st.maxMemories)).map
          Prod.fst).contains p.1) with hpr
    rw [← hsplit, List.countP_append]
    have hz : ((sortByTs st.memoryStore).take
        (st.memoryStore.length - st.maxMemories)).countP
          (fun p => !((((sortByTs st.memoryStore).take
            (st.memoryStore.length - st.maxMemories)).map
              Prod.fst).contains p.1)) = 0 := by
      rw [List.countP_eq_zero]
      intro p hp
      rw [htake0 p hp]
      simp
    have hf : ((sortByTs st.memoryStore).drop
        (st.memoryStore.length - st.maxMemories)).countP
          (fun p => !((((sortByTs st.memoryStore).take
            (st.memoryStore.length - st.maxMemories)).map
              Prod.fst).contains p.1)) =
        ((sortByTs st.memoryStore).drop
          (st.memoryStore.length - st.maxMemories)).length := by
      rw [List.countP_eq_length]
      exact hdrop1
    rw [hz, hf, List.length_drop, hperm.length_eq]
    omega
  refine ⟨hfilter, hlen, ?_, ?_⟩
  · intro r hr s hs
    rw [hfilter] at hs
    have hs1 := List.mem_of_mem_filter hs
    have hs2 := List.of_mem_filter hs
    have hsorted := sortByTs_sorted st.memoryStore
    have hsmem : s ∈ sortByTs st.memoryStore := hperm.mem_iff.mpr hs1
    have : s ∈ (sortByTs st.memoryStore).take
        (st.memoryStore.length - st.maxMemories) ++
        (sortByTs st.memoryStore).drop
          (st.memoryStore.length - st.maxMemories) := by
      rw [hsplit]; exact hsmem
    rcases List.mem_append.mp this with hst | hsd
    · rw [htake0 s hst] at hs2
      simp at hs2
    · rw [← hsplit] at hsorted
      exact (List.pairwise_append.mp hsorted).2.2 r hr s hsd
  · intro front lp hdecomp hmax h1max
    have hfrontle : ∀ y ∈ front, y.2.timestamp ≤ lp.2.timestamp := by
      intro y hy
      exact hmax y (by rw [hdecomp]; exact List.mem_append_left _ hy)
    have hconcat : sortByTs st.memoryStore = sortByTs front ++ [lp] := by
      rw [hdecomp]
      exact sortByTs_concat_max front lp hfrontle
    have hlenfront : (sortByTs front).length = front.length :=
      (sortByTs_perm front).length_eq
    have hkle : st.memoryStore.length - st.maxMemories ≤
        (sortByTs front).length := by
      rw [hlenfront, hdecomp, List.length_append]
      simp only [List.length_singleton]
      omega
    have htakefront : (sortByTs st.memoryStore).take
        (st.memoryStore.length - st.maxMemories) =
        (sortByTs front).take (st.memoryStore.length - st.maxMemories) := by
      rw [hconcat]
      exact take_append_left _ _ _ hkle
    have hlpfront : lp.1 ∉ front.map Prod.fst := by
      have := hnodup
      rw [hdecomp, List.map_append] at this
      have hd := (List.nodup_append.mp this).2.2
      intro hmem
      exact hd hmem (by simp)
    have hlpnot : lp.1 ∉ (((sortByTs st.memoryStore).take
        (st.memoryStore.length - st.maxMemories)).map Prod.fst) := by
      rw [htakefront]
      intro hmem
      obtain ⟨q, hq, hq1⟩ := List.mem_map.mp hmem
      have hqf : q ∈ front :=
        (sortByTs_perm front).mem_iff.mp (List.take_subset _ _ hq)
      exact hlpfront (hq1 ▸ List.mem_map_of_mem Prod.fst hqf)
    rw [hfilter]
    refine List.mem_filter.mpr ⟨by rw [hdecomp]; simp, ?_⟩
    rw [contains_eq_false_of_not_mem hlpnot]
    rfl

noncomputable def exEvictA : MemoryEntry :=
  mkSimpleEntry "A" 100 "example.com" "https://example.com/" none []

noncomputable def exEvictB : MemoryEntry :=
  mkSimpleEntry "B" 50 "example.com" "https://example.com/" none []

/-- Capacity-1 store holding A (timestamp 100), built by the insert
pipeline itself. -/
noncomputable def exEvictState1 : MemState :=
  insertEntry "A" "cA" exEvictA (emptyState 1)

/-- Counterexample to C3 as stated: with `maxMemories = 1` and A
(timestamp 100) stored, inserting B with the OLDER timestamp 50 evicts the
just-inserted B itself, although `maxMemories ≥ 1`. -/
theorem c3_counterexample :
    (insertEntry "B" "cB" exEvictB exEvictState1).maxMemories = 1
    ∧ alookup exEvictState1.memoryStore "A" = some exEvictA
    ∧ alookup (insertEntry "B" "cB" exEvictB exEvictState1).memoryStore "B" =
        none
    ∧ alookup (insertEntry "B" "cB" exEvictB exEvictState1).memoryStore "A" =
        some exEvictA :=
  ⟨rfl, rfl, rfl, rfl⟩

noncomputable def exC3EntryA : MemoryEntry :=
  mkSimpleEntry "A" 50 "example.com" "https://example.com/" none []

noncomputable def exC3EntryB : MemoryEntry :=
  mkSimpleEntry "B" 100 "example.com" "https://example.com/" none []

/-- An over-capacity store: capacity 1 with A (timestamp 50) and the most
recently inserted B (timestamp 100). -/
noncomputable def exC3State : MemState :=
  { emptyState 1 with
    memoryStore := [("A", exC3EntryA), ("B", exC3EntryB)] }

/-- Witness for the amended C3: maintenance trims the store above to exactly
one entry and the newest record B survives. -/
theorem c3_amended_eviction_witness :
    (exC3State.memoryStore.map Prod.fst).Nodup
    ∧ exC3State.maxMemories < exC3State.memoryStore.length
    ∧ (maintainMemoryLimits exC3State).memoryStore.length =
        exC3State.maxMemories
    ∧ ("B", exC3EntryB) ∈ (maintainMemoryLimits exC3State).memoryStore := by
  have hnodup : (exC3State.memoryStore.map Prod.fst).Nodup := by decide
  have hover : exC3State.maxMemories < exC3State.memoryStore.length := by
    decide
  have h := c3_amended_eviction exC3State hnodup hover
  have hts : ∀ p ∈ exC3State.memoryStore,
      p.2.timestamp ≤ (("B", exC3EntryB) : String × MemoryEntry).2.timestamp := by
    intro p hp
    rcases List.mem_cons.mp hp with h1 | h1
    · rw [h1]
      show (50 : Int) ≤ 100
      norm_num
    · rw [List.mem_singleton] at h1
      rw [h1]
  exact ⟨hnodup, hover, h.2.1,
    h.2.2.2 [("A", exC3EntryA)] ("B", exC3EntryB) rfl hts (by decide)⟩

/-! ### Claim C6: relationship reciprocity -/

theorem insertIndexSteps_memoryStore (id : String) (e : MemoryEntry)
    (st : MemState) :
    (insertIndexSteps id e st).memoryStore = mapSet st.memoryStore id e := by
  unfold insertIndexSteps indexEmbeddings updateTemporalIndices
    updateSemanticCategories updateDomainClusters
  dsimp only
  cases e.embeddingsTensor.unified <;> rfl

theorem insertIndexSteps_maxMemories (id : String) (e : MemoryEntry)
    (st : MemState) :
    (insertIndexSteps id e st).maxMemories = st.maxMemories := by
  unfold insertIndexSteps indexEmbeddings updateTemporalIndices
    updateSemanticCategories updateDomainClusters
  dsimp only
  cases e.embeddingsTensor.unified <;> rfl

theorem foldl_reverse_mono (rels : List RelEdge)
    (g : List (String × List RelEdge)) (memoryId k : String) (edge : RelEdge)
    (h : edge ∈ (alookup g k).getD []) :
    edge ∈ (alookup (rels.foldl
      (fun g rel =>
        mapSet g rel.targetId
          (((alookup g rel.targetId).getD []) ++
            [⟨rel.type ++ "-reverse", memoryId, rel.strength⟩])) g) k).getD [] := by
  induction rels generalizing g with
  | nil => exact h
  | cons r t ih =>
    rw [List.foldl_cons]
    apply ih
    by_cases hk : r.targetId = k
    · subst hk
      rw [lookup_mapSet_self]
      exact List.mem_append_left _ h
    · rw [lookup_mapSet_ne _ _ _ _ hk]
      exact h

theorem foldl_reverse_edges (rels : List RelEdge)
    (g : List (String × List RelEdge)) (memoryId : String) :
    ∀ rel ∈ rels,
      (⟨rel.type ++ "-reverse", memoryId, rel.strength⟩ : RelEdge) ∈
        (alookup (rels.foldl
          (fun g rel =>
            mapSet g rel.targetId
              (((alookup g rel.targetId).getD []) ++
                [⟨rel.type ++ "-reverse", memoryId, rel.strength⟩])) g)
          rel.targetId).getD [] := by
  induction rels generalizing g with
  | nil => intro rel hrel; simp at hrel
  | cons r t ih =>
    intro rel hrel
    rw [List.foldl_cons]
    rcases List.mem_cons.mp hrel with h | h
    · subst h
      apply foldl_reverse_mono
      rw [lookup_mapSet_self]
      exact List.mem_append_right _ (List.mem_singleton.mpr rfl)
    · exact ih _ rel h

theorem discoverRelationships_reciprocal (id : String) (e : MemoryEntry)
    (st : MemState) :
    ∀ rel ∈ computeRelationships id e st,
      (⟨rel.type ++ "-reverse", id, rel.strength⟩ : RelEdge) ∈
        (alookup (discoverRelationships id e st).relationshipGraph
          rel.targetId).getD [] := by
  intro rel hrel
  exact foldl_reverse_edges (computeRelationships id e st)
    (mapSet st.relationshipGraph id (computeRelationships id e st)) id rel hrel

/-- Claim C6 (amended): for every edge discovered during the insertion of a
record, the target's edge list holds the matching `-reverse` edge with the
same strength immediately after the insert, PROVIDED the capacity-maintenance
step of that insert evicts nothing; when the edge's target is itself evicted
by the same insert, its edge list — reverse edge included — is deleted. -/
theorem c6_amended_reciprocity (id cid : String) (e : MemoryEntry)
    (st : MemState)
    (hcap : (mapSet st.memoryStore id e).length ≤ st.maxMemories) :
    ∀ rel ∈ computeRelationships id e (insertIndexSteps id e st),
      (⟨rel.type ++ "-reverse", id, rel.strength⟩ : RelEdge) ∈
        (alookup (insertEntry id cid e st).relationshipGraph
          rel.targetId).getD [] := by
  intro rel hrel
  obtain ⟨cc, hcc⟩ := updateConceptClusters_shape id cid e
    (discoverRelationships id e (insertIndexSteps id e st))
  have hnoev : maintainMemoryLimits (updateConceptClusters id cid e
      (discoverRelationships id e (insertIndexSteps id e st))) =
      updateConceptClusters id cid e
        (discoverRelationships id e (insertIndexSteps id e st)) := by
    apply maintainMemoryLimits_noop
    rw [hcc]
    show (insertIndexSteps id e st).memoryStore.length ≤
      (insertIndexSteps id e st).maxMemories
    rw [insertIndexSteps_memoryStore, insertIndexSteps_maxMemories]
    exact hcap
  show (⟨rel.type ++ "-reverse", id, rel.strength⟩ : RelEdge) ∈
    (alookup (maintainMemoryLimits (updateConceptClusters id cid e
      (discoverRelationships id e
        (insertIndexSteps id e st)))).relationshipGraph rel.targetId).getD []
  rw [hnoev, hcc]
  exact discoverRelationships_reciprocal id e (insertIndexSteps id e st)
    rel hrel

noncomputable def exRecipB : MemoryEntry :=
  mkSimpleEntry "B" 0 "example.com" "https://example.com/" none []

noncomputable def exRecipA : MemoryEntry :=
  mkSimpleEntry "A" 1000 "example.com" "https://example.com/" none []

/-- Capacity-1 store holding B (timestamp 0). -/
noncomputable def exRecipState1 : MemState :=
  insertEntry "B" "cB" exRecipB (emptyState 1)

/-- Counterexample to C6 as stated: inserting A (same domain and day as B)
into the full capacity-1 store discovers the edge `A -> B`
(`domain-related`, strength 0.7), but the same insert then evicts B, deleting
B's edge list; immediately after the insert the graph holds NO reverse edge
`B -> A`. -/
theorem c6_counterexample :
    (⟨"domain-related", "B", 0.7⟩ : RelEdge) ∈
      computeRelationships "A" exRecipA
        (insertIndexSteps "A" exRecipA exRecipState1)
    ∧ alookup (insertEntry "A" "cA" exRecipA
        exRecipState1).relationshipGraph "B" = none := by
  constructor
  · have hr : computeRelationships "A" exRecipA
        (insertIndexSteps "A" exRecipA exRecipState1) =
        [⟨"domain-related", "B", 0.7⟩, ⟨"temporal-related", "B", 0.5⟩] := rfl
    rw [hr]
    exact List.mem_cons_self _ _
  · rfl

/-- Capacity-10 store holding B (timestamp 0). -/
noncomputable def exRecipState10 : MemState :=
  insertEntry "B" "cB" exRecipB (emptyState 10)

/-- Witness for the amended C6: with room to spare, the reverse of the
discovered `A -> B` edge is present in B's list right after the insert. -/
theorem c6_amended_reciprocity_witness :
    (mapSet exRecipState10.memoryStore "A" exRecipA).length ≤
        exRecipState10.maxMemories
    ∧ (⟨"domain-related", "B", 0.7⟩ : RelEdge) ∈
        computeRelationships "A" exRecipA
          (insertIndexSteps "A" exRecipA exRecipState10)
    ∧ (⟨"domain-related-reverse", "A", 0.7⟩ : RelEdge) ∈
        (alookup (insertEntry "A" "cA" exRecipA
          exRecipState10).relationshipGraph "B").getD [] := by
  have hcap : (mapSet exRecipState10.memoryStore "A" exRecipA).length ≤
      exRecipState10.maxMemories := by decide
  have hmem : (⟨"domain-related", "B", 0.7⟩ : RelEdge) ∈
      computeRelationships "A" exRecipA
        (insertIndexSteps "A" exRecipA exRecipState10) := by
    have hr : computeRelationships "A" exRecipA
        (insertIndexSteps "A" exRecipA exRecipState10) =
        [⟨"domain-related", "B", 0.7⟩, ⟨"temporal-related", "B", 0.5⟩] := rfl
    rw [hr]
    exact List.mem_cons_self _ _
  exact ⟨hcap, hmem,
    c6_amended_reciprocity "A" "cA" exRecipA exRecipState10 hcap
      ⟨"domain-related", "B", 0.7⟩ hmem⟩

/-! ### Claim C7: record building never fails on partial input -/

theorem insertIndexSteps_embIndex_none (id : String) (e : MemoryEntry)
    (st : MemState) (h : e.embeddingsTensor.unified = none) :
    (insertIndexSteps id e st).embeddingIndex = st.embeddingIndex := by
  unfold insertIndexSteps indexEmbeddings updateTemporalIndices
    updateSemanticCategories updateDomainClusters
  dsimp only
  rw [h]

/-- Claim C7: `storeMemory` on any raw result with missing optional parts
(text analysis, vision analysis — and embeddings, which the input does not
even carry) still builds and inserts a record, substituting empty/zero
defaults, reports success, and never surfaces a provider failure: the model
is total, its `error` field stays `none`, and the record (whose unified
embedding is always `null`) is simply kept out of the embedding index used by
similarity search. -/
theorem c7_store_never_fails (id cid : String) (r : OrchestrationResult)
    (st : MemState)
    (hfresh : alookup st.memoryStore id = none)
    (hembfresh : alookup st.embeddingIndex id = none)
    (hcap : st.memoryStore.length + 1 ≤ st.maxMemories) :
    (storeMemory id cid r st).1.stored = true
    ∧ (storeMemory id cid r st).1.memoryId = some id
    ∧ (storeMemory id cid r st).1.error = none
    ∧ alookup (storeMemory id cid r st).2.memoryStore id =
        some (createMemoryEntry id r)
    ∧ (r.agentResults.text = none →
        (createMemoryEntry id r).agentOutputs.text.summary = "" ∧
        (createMemoryEntry id r).agentOutputs.text.confidence = 0)
    ∧ (r.agentResults.vision = none →
        (createMemoryEntry id r).agentOutputs.vision.synthesis = "" ∧
        (createMemoryEntry id r).agentOutputs.vision.confidence = 0)
    ∧ (createMemoryEntry id r).embeddingsTensor.unified = none
    ∧ alookup (storeMemory id cid r st).2.embeddingIndex id = none := by
  obtain ⟨cc, hcc⟩ := updateConceptClusters_shape id cid (createMemoryEntry id r)
    (discoverRelationships id (createMemoryEntry id r)
      (insertIndexSteps id (createMemoryEntry id r) st))
  have hnoev : maintainMemoryLimits (updateConceptClusters id cid
      (createMemoryEntry id r) (discoverRelationships id
        (createMemoryEntry id r)
        (insertIndexSteps id (createMemoryEntry id r) st))) =
      updateConceptClusters id cid (createMemoryEntry id r)
        (discoverRelationships id (createMemoryEntry id r)
          (insertIndexSteps id (createMemoryEntry id r) st)) := by
    apply maintainMemoryLimits_noop
    rw [hcc]
    show (insertIndexSteps id (createMemoryEntry id r) st).memoryStore.length ≤
      (insertIndexSteps id (createMemoryEntry id r) st).maxMemories
    rw [insertIndexSteps_memoryStore, insertIndexSteps_maxMemories,
      length_mapSet_fresh _ _ _ hfresh]
    exact hcap
  refine ⟨rfl, rfl, rfl, ?_, ?_, ?_, rfl, ?_⟩
  · show alookup (maintainMemoryLimits (updateConceptClusters id cid
      (createMemoryEntry id r) (discoverRelationships id
        (createMemoryEntry id r) (insertIndexSteps id
          (createMemoryEntry id r) st)))).memoryStore id = _
    rw [hnoev, hcc]
    show alookup (insertIndexSteps id (createMemoryEntry id r) st).memoryStore
      id = _
    rw [insertIndexSteps_memoryStore]
    exact lookup_mapSet_self _ _ _
  · intro h
    constructor
    · show summaryWithEllipsis
        ((r.agentResults.text.bind (fun t => t.textAnalysis)).bind
          (fun a => a.summary)) = ""
      rw [h]
      rfl
    · show ((r.agentResults.text.bind (fun t => t.confidence)).getD 0) = 0
      rw [h]
      rfl
  · intro h
    constructor
    · show summaryWithEllipsis
        ((r.agentResults.vision.bind (fun v => v.visionAnalysis)).bind
          (fun a => a.synthesis)) = ""
      rw [h]
      rfl
    · show ((r.agentResults.vision.bind (fun v => v.confidence)).getD 0) = 0
      rw [h]
      rfl
  · show alookup (maintainMemoryLimits (updateConceptClusters id cid
      (createMemoryEntry id r) (discoverRelationships id
        (createMemoryEntry id r) (insertIndexSteps id
          (createMemoryEntry id r) st)))).embeddingIndex id = none
    rw [hnoev, hcc]
    show alookup (insertIndexSteps id (createMemoryEntry id r)
      st).embeddingIndex id = none
    rw [insertIndexSteps_embIndex_none id (createMemoryEntry id r) st rfl]
    exact hembfresh

/-- A raw analysis result with neither a text nor a vision analysis. -/
noncomputable def exC7Result : OrchestrationResult :=
  { timestamp := 0
    url := "https://example.com/"
    agentId := "orchestrator-1"
    agentResults := { text := none, vision := none }
    orchestratorSynthesis :=
      { unifiedAnalysis := none, confidence := none, agentAgreement := none }
    qualityMetrics := { overallScore := 0 }
    orchestrationMetadata := { processingTime := 0, synthesisApproach := "v" } }

/-- Witness for C7: storing the fully-degenerate raw result above in an
empty store succeeds with all defaults. -/
theorem c7_store_never_fails_witness :
    alookup (emptyState 5).memoryStore "m7" = none
    ∧ alookup (emptyState 5).embeddingIndex "m7" = none
    ∧ (emptyState 5).memoryStore.length + 1 ≤ (emptyState 5).maxMemories
    ∧ (storeMemory "m7" "c7" exC7Result (emptyState 5)).1.stored = true
    ∧ (storeMemory "m7" "c7" exC7Result (emptyState 5)).1.error = none
    ∧ alookup (storeMemory "m7" "c7" exC7Result
        (emptyState 5)).2.memoryStore "m7" =
      some (createMemoryEntry "m7" exC7Result)
    ∧ (createMemoryEntry "m7" exC7Result).agentOutputs.text.summary = ""
    ∧ (createMemoryEntry "m7" exC7Result).agentOutputs.vision.synthesis = ""
    ∧ (createMemoryEntry "m7" exC7Result).embeddingsTensor.unified = none
    ∧ alookup (storeMemory "m7" "c7" exC7Result
        (emptyState 5)).2.embeddingIndex "m7" = none := by
  have h := c7_store_never_fails "m7" "c7" exC7Result (emptyState 5)
    rfl rfl (by decide)
  exact ⟨rfl, rfl, by decide, h.1, h.2.2.1, h.2.2.2.1,
    (h.2.2.2.2.1 rfl).1, (h.2.2.2.2.2.1 rfl).1, h.2.2.2.2.2.2.1,
    h.2.2.2.2.2.2.2⟩
